import Mathlib

/-!
Verification of the WPPF (whole powder pattern fitting) module of hexrd3
(`hexrd/WPPF.py`): LeBail refinement engine, spectrum arithmetic, parameter
store and the crystallographic reflection generator.

The Python code computes with IEEE floats and numpy arrays; the embedding
uses exact rationals (`ℚ`) and `List ℚ`.  Transcendental primitives
(`np.sqrt`, `np.exp`, `np.log`, `np.tan`, `np.cos`, `np.arcsin`, `np.pi`)
are bundled in a `PrimFns` record and every embedded function is
parameterised by it, so theorems hold for every interpretation of the
primitives and concrete witnesses can pick computable ones.  Exceptions
(`raise`) are modelled with `Except WErr`.
-/

/-- Python exception values raised by WPPF.py code paths. -/
inductive WErr where
  /-- `BkgNotInRangeError(name)` raised by `Spectrum.data`, `__sub__`, `__add__`. -/
  | bkgNotInRange (name : String)
  /-- `ValueError(msg)`. -/
  | valueError (msg : String)
  /-- `RuntimeError(msg)`. -/
  | runtimeError (msg : String)
  /-- `NameError` (e.g. `gaussian_filter1d` is used but never imported in WPPF.py). -/
  | nameError (msg : String)
deriving DecidableEq

/-- The transcendental/irrational primitives the source takes from numpy.
They are opaque parameters of the whole embedding. -/
structure PrimFns where
  sqrt : ℚ → ℚ
  exp : ℚ → ℚ
  log : ℚ → ℚ
  tan : ℚ → ℚ
  cos : ℚ → ℚ
  arcsin : ℚ → ℚ
  pi : ℚ

/-- `np.radians`: degrees to radians. -/
def radians (prim : PrimFns) (x : ℚ) : ℚ := x * prim.pi / 180

/-- `np.degrees`: radians to degrees. -/
def degrees (prim : PrimFns) (x : ℚ) : ℚ := x * 180 / prim.pi

/-- `np.max` of a 1-d array (arrays at the embedded call sites are nonempty;
numpy raises on an empty array, here the junk value 0 is returned). -/
def npMax (l : List ℚ) : ℚ :=
  match l with
  | [] => 0
  | a :: t => t.foldl max a

/-- `np.min` of a 1-d array. -/
def npMin (l : List ℚ) : ℚ :=
  match l with
  | [] => 0
  | a :: t => t.foldl min a

/-- `np.trapz(y, x)`: trapezoidal integration of the samples `y` over the
grid `x`, `Σᵢ (x₍ᵢ₊₁₎ − xᵢ)·(yᵢ + y₍ᵢ₊₁₎)/2`. -/
def trapz (y x : List ℚ) : ℚ :=
  (((y.zip y.tail).zip (x.zip x.tail)).map
    (fun q => (q.2.2 - q.2.1) * (q.1.1 + q.1.2) / 2)).sum

/-- `scipy.interpolate.interp1d(xs, ys, kind='linear')` evaluated at `t`,
for a strictly increasing grid `xs`; the embedded call sites only evaluate
inside the grid range (scipy raises outside it; here the first/last
segment is extrapolated). -/
def interp1dLinear : List (ℚ × ℚ) → ℚ → ℚ
  | [], _ => 0
  | [(_, y0)], _ => y0
  | (x0, y0) :: (x1, y1) :: rest, t =>
      if t ≤ x1 then y0 + (y1 - y0) * (t - x0) / (x1 - x0)
      else interp1dLinear ((x1, y1) :: rest) t

/-- elementwise combination of three equal-length arrays. -/
def zipWith3 (f : α → β → γ → δ) : List α → List β → List γ → List δ
  | a :: as, b :: bs, c :: cs => f a b c :: zipWith3 f as bs cs
  | _, _, _ => []

/-- Round a rational to the nearest integer, ties to even
(IEEE / numpy rounding mode). -/
def roundHalfEven (q : ℚ) : ℤ :=
  let f : ℤ := ⌊q⌋
  let r : ℚ := q - f
  if r < 1/2 then f
  else if 1/2 < r then f + 1
  else if Even f then f else f + 1

/-- `np.round(q, 8)`: round to 8 decimal digits, ties to even. -/
def npRound8 (q : ℚ) : ℚ := (roundHalfEven (q * 100000000) : ℚ) / 100000000

/-!  ## Spectrum (x, y curve with optional background, scaling, offset)  -/

/-- The `Spectrum` class: `_x`, `_y`, `name`, `offset`, `_scaling`,
`smoothing`, `bkg_Spectrum`.  `Spectrum(x, y, name)` leaves
`offset = 0`, `scaling = 1`, `smoothing = 0`, `bkg_Spectrum = None`. -/
inductive Spectrum where
  | mk (x y : List ℚ) (name : String) (offset scaling smoothing : ℚ)
       (bkg : Option Spectrum)

instance : Inhabited Spectrum := ⟨.mk [] [] "" 0 1 0 none⟩

/-- Boolean equality on `Spectrum` (the nested `Option` blocks deriving). -/
def Spectrum.beq : Spectrum → Spectrum → Bool
  | .mk x y n o s m bkg, .mk x2 y2 n2 o2 s2 m2 bkg2 =>
    decide (x = x2) && decide (y = y2) && decide (n = n2) && decide (o = o2) &&
    decide (s = s2) && decide (m = m2) &&
    (match bkg, bkg2 with
     | none, none => true
     | some u, some v => Spectrum.beq u v
     | _, _ => false)

def Spectrum.beq_iff_eq : ∀ a b : Spectrum, Spectrum.beq a b = true ↔ a = b
  | .mk x y n o s m bkg, .mk x2 y2 n2 o2 s2 m2 bkg2 => by
    unfold Spectrum.beq
    cases bkg with
    | none =>
      cases bkg2 with
      | none => simp only [Bool.and_eq_true, decide_eq_true_eq, Spectrum.mk.injEq]; tauto
      | some v => simp
    | some u =>
      cases bkg2 with
      | none => simp
      | some v =>
        have ih := Spectrum.beq_iff_eq u v
        simp only [Bool.and_eq_true, decide_eq_true_eq, Spectrum.mk.injEq, ih,
          Option.some.injEq]
        tauto

instance : DecidableEq Spectrum := fun a b =>
  decidable_of_iff _ (Spectrum.beq_iff_eq a b)

instance {ε α : Type} [DecidableEq ε] [DecidableEq α] : DecidableEq (Except ε α)
  | .ok a, .ok b =>
    if h : a = b then .isTrue (by rw [h]) else .isFalse (by simp [h])
  | .error e, .error f =>
    if h : e = f then .isTrue (by rw [h]) else .isFalse (by simp [h])
  | .ok _, .error _ => .isFalse (by simp)
  | .error _, .ok _ => .isFalse (by simp)

/-- `_x`. -/
def Spectrum.x : Spectrum → List ℚ
  | .mk x _ _ _ _ _ _ => x

/-- `_y`. -/
def Spectrum.y : Spectrum → List ℚ
  | .mk _ y _ _ _ _ _ => y

/-- `name`. -/
def Spectrum.name : Spectrum → String
  | .mk _ _ n _ _ _ _ => n

/-- The `Spectrum` constructor with only `x`, `y`, `name` supplied,
as used throughout WPPF.py. -/
def Spectrum.ofXY (x y : List ℚ) (name : String) : Spectrum :=
  .mk x y name 0 1 0 none

/-- The `Spectrum.data` property: background subtraction (interpolating the
background when the grids differ, raising `BkgNotInRangeError` when ranges
do not overlap), then scaling/offset, then smoothing.  The smoothing branch
calls `gaussian_filter1d`, a name never imported by WPPF.py, so taking it
raises `NameError`. -/
def Spectrum.data : Spectrum → Except WErr (List ℚ × List ℚ)
  | .mk x y name offset scaling smoothing bkg => do
    let xy ←
      match bkg with
      | some bs => do
        let bd ← bs.data
        let x_bkg := bd.1
        let y_bkg := bd.2
        if x_bkg = x then
          -- if Spectrum and bkg have the same x basis we just delete y-y_bkg
          pure (x, List.zipWith (fun yv bv => yv * scaling + offset - bv) y y_bkg)
        else
          -- find overlapping x and y values
          let pairs := (x.zip y).filter
            (fun p => p.1 ≤ npMax x_bkg ∧ npMin x_bkg ≤ p.1)
          if pairs.isEmpty then
            throw (.bkgNotInRange name)
          else
            pure (pairs.map Prod.fst,
              pairs.map (fun p =>
                p.2 * scaling + offset - interp1dLinear (x_bkg.zip y_bkg) p.1))
      | none =>
        -- original_data
        pure (x, y.map (fun yv => yv * scaling + offset))
    if 0 < smoothing then
      throw (.nameError "gaussian_filter1d is not defined")
    else
      pure xy

/-- `Spectrum.__sub__`.  When the two x arrays have different shapes the
source builds `interp1d(other_x, other_x)` — the x-values against
themselves, not `other_y` — restricts to the overlap of the grids and
raises `BkgNotInRangeError` when the overlap is empty; with equal shapes it
subtracts elementwise. -/
def Spectrum.sub (a other : Spectrum) : Except WErr Spectrum := do
  let od ← a.data
  let td ← other.data
  let orig_x := od.1
  let orig_y := od.2
  let other_x := td.1
  let other_y := td.2
  if orig_x.length ≠ other_x.length then
    -- other_fcn = interp1d(other_x, other_x, kind='linear')  [sic]
    let pairs := (orig_x.zip orig_y).filter
      (fun p => p.1 ≤ npMax other_x ∧ npMin other_x ≤ p.1)
    if pairs.isEmpty then
      throw (.bkgNotInRange a.name)
    else
      pure (Spectrum.ofXY (pairs.map Prod.fst)
        (pairs.map (fun p => p.2 - interp1dLinear (other_x.zip other_x) p.1)) "")
  else
    pure (Spectrum.ofXY orig_x (List.zipWith (fun u v => u - v) orig_y other_y) "")

/-- `Spectrum.__add__`: same structure as `__sub__` with `+`. -/
def Spectrum.add (a other : Spectrum) : Except WErr Spectrum := do
  let od ← a.data
  let td ← other.data
  let orig_x := od.1
  let orig_y := od.2
  let other_x := td.1
  let other_y := td.2
  if orig_x.length ≠ other_x.length then
    -- other_fcn = interp1d(other_x, other_x, kind='linear')  [sic]
    let pairs := (orig_x.zip orig_y).filter
      (fun p => p.1 ≤ npMax other_x ∧ npMin other_x ≤ p.1)
    if pairs.isEmpty then
      throw (.bkgNotInRange a.name)
    else
      pure (Spectrum.ofXY (pairs.map Prod.fst)
        (pairs.map (fun p => p.2 + interp1dLinear (other_x.zip other_x) p.1)) "")
  else
    pure (Spectrum.ofXY orig_x (List.zipWith (fun u v => u + v) orig_y other_y) "")

/-!  ## Parameter / Parameters (named, bounded, vary-flagged value store)  -/

/-- A Python value that can sit in a `Parameter` bound slot: a number,
`-np.Inf` / `np.Inf`, or (after the slip in `Parameters.__init__`, which
passes the builtins `min` and `max` as bounds) a builtin function object. -/
inductive PyVal where
  | num (q : ℚ)
  | ninf
  | pinf
  | builtin (name : String)
deriving DecidableEq

/-- The `Parameter` class: `name`, `vary`, `value`, `lb`, `ub`.
Python defaults: `vary=False`, `value=0.0`, `lb=-np.Inf`, `ub=np.Inf`. -/
structure Parameter where
  name : String
  vary : Bool
  value : ℚ
  lb : PyVal
  ub : PyVal
deriving DecidableEq

/-- `Parameters.param_dict`: an insertion-ordered mapping name → Parameter. -/
abbrev Parameters := List (String × Parameter)

/-- First-match association-list lookup (Python dict lookup; the embedded
dictionaries are built with unique keys). -/
def alookup : List (String × α) → String → Option α
  | [], _ => none
  | (k, v) :: t, key => if k = key then some v else alookup t key

/-- `Parameters.__setitem__`: overwrite in place when the name exists
(Python warns and keeps the insertion position), else append. -/
def Parameters.set (ps : Parameters) (key : String) (v : Parameter) : Parameters :=
  if (alookup ps key).isSome then
    ps.map (fun kv => if kv.1 = key then (key, v) else kv)
  else
    ps ++ [(key, v)]

/-- `Parameters.__getitem__`: raises `ValueError` when the name is absent. -/
def Parameters.get (ps : Parameters) (key : String) : Except WErr Parameter :=
  match alookup ps key with
  | some v => .ok v
  | none => .error (.valueError "variable with name not found")

/-- `Parameters.add(name, vary, value, lb, ub)`. -/
def Parameters.add (ps : Parameters) (name : String) (vary : Bool) (value : ℚ)
    (lb ub : PyVal) : Parameters :=
  Parameters.set ps name ⟨name, vary, value, lb, ub⟩

/-- `Parameters.add_many(names, varies, values, lbs, ubs)` (the source
asserts the five tuples have equal lengths). -/
def Parameters.add_many (ps : Parameters) (names : List String) (varies : List Bool)
    (values : List ℚ) (lbs ubs : List PyVal) : Parameters :=
  ((names.zip (varies.zip (values.zip (lbs.zip ubs))))).foldl
    (fun ps q => Parameters.add ps q.1 q.2.1 q.2.2.1 q.2.2.2.1 q.2.2.2.2) ps

/-- `Parameters.__init__(name, vary, value, lb, ub)`: starts from an empty
dict, and when `name` is given calls
`self.add(name=name, vary=vary, value=value, lb=min, ub=max)` — passing the
Python builtin functions `min` and `max` as the bounds, not the
`lb`/`ub` arguments. -/
def ParametersInit (name : Option String) (vary : Bool) (value : ℚ) : Parameters :=
  match name with
  | none => []
  | some n => Parameters.add [] n vary value (.builtin "min") (.builtin "max")

/-!  ## Crystallography: hkl triples, metric tensors, reflection generator  -/

/-- An hkl triple / 3-vector of integers. -/
structure V3 where
  h : ℤ
  k : ℤ
  l : ℤ
deriving DecidableEq

instance : Inhabited V3 := ⟨⟨0, 0, 0⟩⟩

/-- `np.sum(np.abs(g))`. -/
def V3.sumAbs (g : V3) : ℤ := |g.h| + |g.k| + |g.l|

/-- `np.sum(g)`. -/
def V3.compSum (g : V3) : ℤ := g.h + g.k + g.l

/-- `np.max(g)`. -/
def V3.maxComp (g : V3) : ℤ := max g.h (max g.k g.l)

/-- An integer 3×3 matrix (a point-group operator in reciprocal space),
stored by rows. -/
structure M3i where
  r0 : V3
  r1 : V3
  r2 : V3
deriving DecidableEq

instance : Inhabited M3i := ⟨⟨⟨1,0,0⟩, ⟨0,1,0⟩, ⟨0,0,1⟩⟩⟩

/-- `np.dot(s, v)` for an integer matrix and an hkl triple. -/
def M3i.mulVec (s : M3i) (v : V3) : V3 :=
  ⟨s.r0.h * v.h + s.r0.k * v.k + s.r0.l * v.l,
   s.r1.h * v.h + s.r1.k * v.k + s.r1.l * v.l,
   s.r2.h * v.h + s.r2.k * v.k + s.r2.l * v.l⟩

/-- A rational symmetric 3×3 matrix (direct/reciprocal metric tensor). -/
structure M3q where
  m00 : ℚ
  m01 : ℚ
  m02 : ℚ
  m10 : ℚ
  m11 : ℚ
  m12 : ℚ
  m20 : ℚ
  m21 : ℚ
  m22 : ℚ
deriving DecidableEq

instance : Inhabited M3q := ⟨⟨1,0,0,0,1,0,0,0,1⟩⟩

/-- The identity matrix. -/
def M3q.id : M3q := ⟨1,0,0,0,1,0,0,0,1⟩

/-- `np.dot(u, np.dot(m, u))`: the quadratic form of the metric tensor `m`
at the integer vector `u` — the squared length of `u` in that space. -/
def len2q (m : M3q) (u : V3) : ℚ :=
  (u.h : ℚ) * (m.m00 * u.h + m.m01 * u.k + m.m02 * u.l) +
  (u.k : ℚ) * (m.m10 * u.h + m.m11 * u.k + m.m12 * u.l) +
  (u.l : ℚ) * (m.m20 * u.h + m.m21 * u.k + m.m22 * u.l)

/-- `CalcLength(u, 'r')` = `np.sqrt(np.dot(u, np.dot(rmt, u)))`. -/
def CalcLength (prim : PrimFns) (rmt : M3q) (u : V3) : ℚ :=
  prim.sqrt (len2q rmt u)

/-- `np.linalg.det` of a 3×3 matrix. -/
def M3q.det (m : M3q) : ℚ :=
  m.m00 * (m.m11 * m.m22 - m.m12 * m.m21)
  - m.m01 * (m.m10 * m.m22 - m.m12 * m.m20)
  + m.m02 * (m.m10 * m.m21 - m.m11 * m.m20)

/-- `np.linalg.inv` of a 3×3 matrix via the adjugate (in exact arithmetic;
`np.linalg.inv` raises on a singular input, here division by a zero
determinant yields junk zeros). -/
def M3q.inv (m : M3q) : M3q :=
  let d := m.det
  ⟨ (m.m11 * m.m22 - m.m12 * m.m21) / d,
    -(m.m01 * m.m22 - m.m02 * m.m21) / d,
    (m.m01 * m.m12 - m.m02 * m.m11) / d,
    -(m.m10 * m.m22 - m.m12 * m.m20) / d,
    (m.m00 * m.m22 - m.m02 * m.m20) / d,
    -(m.m00 * m.m12 - m.m02 * m.m10) / d,
    (m.m10 * m.m21 - m.m11 * m.m20) / d,
    -(m.m00 * m.m21 - m.m01 * m.m20) / d,
    (m.m00 * m.m11 - m.m01 * m.m10) / d ⟩

/-- `_calcrmt`: from the six lattice parameters build the direct metric
tensor `dmt`, the cell volume `vol = sqrt(det dmt)` and the reciprocal
metric tensor `rmt = dmt⁻¹` (a too-small volume only warns). -/
def calcrmt (prim : PrimFns) (lp : List ℚ) : M3q × ℚ × M3q :=
  let a := lp.getD 0 0
  let b := lp.getD 1 0
  let c := lp.getD 2 0
  let alpha := radians prim (lp.getD 3 0)
  let beta := radians prim (lp.getD 4 0)
  let gamma := radians prim (lp.getD 5 0)
  let ca := prim.cos alpha
  let cb := prim.cos beta
  let cg := prim.cos gamma
  let dmt : M3q :=
    ⟨a^2, a*b*cg, a*c*cb,
     a*b*cg, b^2, b*c*ca,
     a*c*cb, b*c*ca, c^2⟩
  (dmt, prim.sqrt dmt.det, dmt.inv)

/-- `CalcStar(v, 'r')`: fold over the operator list, appending `s·v`
whenever it is not yet present (the source's `1e-4` closeness test is exact
equality on integer vectors). -/
def CalcStar (sym : List M3i) (v : V3) : List V3 :=
  sym.foldl
    (fun vsym s =>
      let vp := s.mulVec v
      if vp ∈ vsym then vsym else vsym ++ [vp])
    [v]

/-- The lattice-centering condition of `Allowed_HKLs` for a known centering
symbol, exactly as the source computes the per-row mask. -/
def centeringCond (c : Char) (g : V3) : Bool :=
  if c = 'P' then
    true
  else if c = 'F' then
    -- seo = sum of (component+100) mod 2 ; not allowed iff seo ∈ {1, 2}
    let seo := (g.h + 100) % 2 + (g.k + 100) % 2 + (g.l + 100) % 2
    ! (seo = 1 ∨ seo = 2)
  else if c = 'I' then
    (g.h + g.k + g.l + 100) % 2 = 0
  else if c = 'A' then
    (g.k + g.l + 100) % 2 = 0
  else if c = 'B' then
    (g.h + g.l + 100) % 2 = 0
  else if c = 'C' then
    (g.h + g.k + 100) % 2 = 0
  else if c = 'R' then
    (-g.h + g.k + g.l + 90) % 3 = 0
  else
    false

/-- The set of centering symbols the `if/elif` chain of `Allowed_HKLs`
recognises. -/
def knownCenterings : List Char := ['P', 'F', 'I', 'A', 'B', 'C', 'R']

/-- `omitscrewaxisabsences(hkllist, ax, iax)` (the method bodies of the
two material classes are textually identical; this single definition
embeds both): the screw-axis systematic absences, dispatching on the
lattice type, with `iax` 0/1/2 for the primary/secondary/tertiary axis.
The source's `ax is not '2_1'` identity tests behave as string
(in)equality for these interned literals.  Branches in which the source
reads a `mask` variable it never assigned raise `NameError`; the explicit
`raise RuntimeError` branches are kept; dispatch arms the source does not
cover fall through with the list unchanged. -/
def omitscrewaxisabsences (latticeType : String) (hkllist : List V3)
    (ax : String) (iax : ℕ) : Except WErr (List V3) :=
  if latticeType = "triclinic" then
    -- no systematic absences for the triclinic crystals
    .ok hkllist
  else if latticeType = "monoclinic" then
    if ax ≠ "2_1" then
      .error (.runtimeError
        "omitscrewaxisabsences: monoclinic systems can only have 2_1 screw axis")
    else if iax = 1 then
      .ok (hkllist.filter (fun g =>
        !(decide (g.h = 0) && decide (g.l = 0) && decide ((g.k + 100) % 2 ≠ 0))))
    else
      .error (.runtimeError
        "omitscrewaxisabsences: only b-axis can have 2_1 screw axis")
  else if latticeType = "orthorhombic" then
    if ax ≠ "2_1" then
      .error (.runtimeError
        "omitscrewaxisabsences: orthorhombic systems can only have 2_1 screw axis")
    else if iax = 0 then
      .ok (hkllist.filter (fun g =>
        !(decide (g.k = 0) && decide (g.l = 0) && decide ((g.h + 100) % 2 ≠ 0))))
    else if iax = 1 then
      .ok (hkllist.filter (fun g =>
        !(decide (g.h = 0) && decide (g.l = 0) && decide ((g.k + 100) % 2 ≠ 0))))
    else if iax = 2 then
      .ok (hkllist.filter (fun g =>
        !(decide (g.h = 0) && decide (g.k = 0) && decide ((g.l + 100) % 2 ≠ 0))))
    else
      .ok hkllist
  else if latticeType = "tetragonal" then
    if iax = 0 then
      if ax = "4_2" then
        .ok (hkllist.filter (fun g =>
          !(decide (g.h = 0) && decide (g.k = 0) && decide ((g.l + 100) % 2 ≠ 0))))
      else if ax = "4_1" ∨ ax = "4_3" then
        .ok (hkllist.filter (fun g =>
          !(decide (g.h = 0) && decide (g.k = 0) && decide ((g.l + 100) % 4 ≠ 0))))
      else
        .error (.nameError "name mask2 is not defined")
    else if iax = 1 then
      if ax = "2_1" then
        .ok (hkllist.filter (fun g =>
          !(decide (g.k = 0) && decide (g.l = 0) && decide ((g.h + 100) % 2 ≠ 0)) &&
          !(decide (g.h = 0) && decide (g.l = 0) && decide ((g.k + 100) % 2 ≠ 0))))
      else
        .error (.nameError "name mask3 is not defined")
    else
      .ok hkllist
  else if latticeType = "trigonal" then
    if iax = 0 then
      if ax = "3_1" ∨ ax = "3_2" then
        .ok (hkllist.filter (fun g =>
          !(decide (g.h = 0) && decide (g.k = 0) && decide ((g.l + 90) % 3 ≠ 0))))
      else
        .error (.nameError "name mask2 is not defined")
    else
      .error (.runtimeError
        "omitscrewaxisabsences: trigonal systems can only have screw axis")
  else if latticeType = "hexagonal" then
    if iax = 0 then
      if ax = "6_3" then
        .ok (hkllist.filter (fun g =>
          !(decide (g.h = 0) && decide (g.k = 0) && decide ((g.l + 100) % 2 ≠ 0))))
      else if ax = "3_1" ∨ ax = "3_2" ∨ ax = "6_2" ∨ ax = "6_4" then
        .ok (hkllist.filter (fun g =>
          !(decide (g.h = 0) && decide (g.k = 0) && decide ((g.l + 90) % 3 ≠ 0))))
      else if ax = "6_1" ∨ ax = "6_5" then
        .ok (hkllist.filter (fun g =>
          !(decide (g.h = 0) && decide (g.k = 0) && decide ((g.l + 120) % 6 ≠ 0))))
      else
        .error (.nameError "name mask2 is not defined")
    else
      .error (.runtimeError
        "omitscrewaxisabsences: hexagonal systems can only have screw axis")
  else if latticeType = "cubic" then
    if ax = "2_1" ∨ ax = "4_2" then
      .ok (hkllist.filter (fun g =>
        !(decide (g.h = 0) && decide (g.k = 0) && decide ((g.l + 100) % 2 ≠ 0)) &&
        !(decide (g.h = 0) && decide (g.l = 0) && decide ((g.k + 100) % 2 ≠ 0)) &&
        !(decide (g.k = 0) && decide (g.l = 0) && decide ((g.h + 100) % 2 ≠ 0))))
    else if ax = "4_1" ∨ ax = "4_3" then
      .ok (hkllist.filter (fun g =>
        !(decide (g.h = 0) && decide (g.k = 0) && decide ((g.l + 100) % 4 ≠ 0)) &&
        !(decide (g.h = 0) && decide (g.l = 0) && decide ((g.k + 100) % 4 ≠ 0)) &&
        !(decide (g.k = 0) && decide (g.l = 0) && decide ((g.h + 100) % 4 ≠ 0))))
    else
      .error (.nameError "name mask4 is not defined")
  else
    .ok hkllist

/-- `omitglideplaneabsences(hkllist, plane, ip)` (the method bodies of the
two material classes are textually identical; this single definition
embeds both): the glide-plane systematic absences, dispatching on the
lattice type, with `ip` 0/1/2 for the primary/secondary/tertiary plane
normal.  As in `omitscrewaxisabsences`, branches reading an unassigned
`mask` raise `NameError`, explicit raises are kept, and uncovered
dispatch arms leave the list unchanged.  In the hexagonal `ip = 2` branch
the source conjoins `mask4` a second time after the branch, which is
idempotent and folded into a single conjunction here. -/
def omitglideplaneabsences (latticeType : String) (hkllist : List V3)
    (plane : String) (ip : ℕ) : Except WErr (List V3) :=
  if latticeType = "triclinic" then
    .ok hkllist
  else if latticeType = "monoclinic" then
    if ip = 1 then
      if plane = "c" then
        .ok (hkllist.filter (fun g =>
          !(decide (g.k = 0) && decide ((g.l + 100) % 2 ≠ 0))))
      else if plane = "a" then
        .ok (hkllist.filter (fun g =>
          !(decide (g.k = 0) && decide ((g.h + 100) % 2 ≠ 0))))
      else if plane = "n" then
        .ok (hkllist.filter (fun g =>
          !(decide (g.k = 0) && decide ((g.h + g.l + 100) % 2 ≠ 0))))
      else
        .error (.nameError "name mask2 is not defined")
    else
      .ok hkllist
  else if latticeType = "orthorhombic" then
    if ip = 0 then
      if plane = "b" then
        .ok (hkllist.filter (fun g =>
          !(decide (g.h = 0) && decide ((g.k + 100) % 2 ≠ 0))))
      else if plane = "c" then
        .ok (hkllist.filter (fun g =>
          !(decide (g.h = 0) && decide ((g.l + 100) % 2 ≠ 0))))
      else if plane = "n" then
        .ok (hkllist.filter (fun g =>
          !(decide (g.h = 0) && decide ((g.k + g.l + 100) % 2 ≠ 0))))
      else if plane = "d" then
        .ok (hkllist.filter (fun g =>
          !(decide (g.h = 0) && decide ((g.k + g.l + 100) % 4 ≠ 0))))
      else
        .error (.nameError "name mask2 is not defined")
    else if ip = 1 then
      if plane = "c" then
        .ok (hkllist.filter (fun g =>
          !(decide (g.k = 0) && decide ((g.l + 100) % 2 ≠ 0))))
      else if plane = "a" then
        .ok (hkllist.filter (fun g =>
          !(decide (g.k = 0) && decide ((g.h + 100) % 2 ≠ 0))))
      else if plane = "n" then
        .ok (hkllist.filter (fun g =>
          !(decide (g.k = 0) && decide ((g.h + g.l + 100) % 2 ≠ 0))))
      else if plane = "d" then
        .ok (hkllist.filter (fun g =>
          !(decide (g.k = 0) && decide ((g.h + g.l + 100) % 4 ≠ 0))))
      else
        .error (.nameError "name mask2 is not defined")
    else if ip = 2 then
      if plane = "a" then
        .ok (hkllist.filter (fun g =>
          !(decide (g.l = 0) && decide ((g.h + 100) % 2 ≠ 0))))
      else if plane = "b" then
        .ok (hkllist.filter (fun g =>
          !(decide (g.l = 0) && decide ((g.k + 100) % 2 ≠ 0))))
      else if plane = "n" then
        .ok (hkllist.filter (fun g =>
          !(decide (g.l = 0) && decide ((g.h + g.k + 100) % 2 ≠ 0))))
      else if plane = "d" then
        .ok (hkllist.filter (fun g =>
          !(decide (g.l = 0) && decide ((g.h + g.k + 100) % 4 ≠ 0))))
      else
        .error (.nameError "name mask2 is not defined")
    else
      .ok hkllist
  else if latticeType = "tetragonal" then
    if ip = 0 then
      if plane = "a" then
        .ok (hkllist.filter (fun g =>
          !(decide (g.l = 0) && decide ((g.h + 100) % 2 ≠ 0))))
      else if plane = "b" then
        .ok (hkllist.filter (fun g =>
          !(decide (g.l = 0) && decide ((g.k + 100) % 2 ≠ 0))))
      else if plane = "n" then
        .ok (hkllist.filter (fun g =>
          !(decide (g.l = 0) && decide ((g.h + g.k + 100) % 2 ≠ 0))))
      else if plane = "d" then
        .ok (hkllist.filter (fun g =>
          !(decide (g.l = 0) && decide ((g.h + g.k + 100) % 4 ≠ 0))))
      else
        .error (.nameError "name mask2 is not defined")
    else if ip = 1 then
      if plane = "a" ∨ plane = "b" then
        .ok (hkllist.filter (fun g =>
          !(decide (g.h = 0) && decide ((g.k + 100) % 2 ≠ 0)) &&
          !(decide (g.k = 0) && decide ((g.h + 100) % 2 ≠ 0))))
      else if plane = "c" then
        .ok (hkllist.filter (fun g =>
          !(decide (g.h = 0) && decide ((g.l + 100) % 2 ≠ 0)) &&
          !(decide (g.k = 0) && decide ((g.l + 100) % 2 ≠ 0))))
      else if plane = "n" then
        .ok (hkllist.filter (fun g =>
          !(decide (g.h = 0) && decide ((g.k + g.l + 100) % 2 ≠ 0)) &&
          !(decide (g.k = 0) && decide ((g.h + g.l + 100) % 2 ≠ 0))))
      else if plane = "d" then
        .ok (hkllist.filter (fun g =>
          !(decide (g.h = 0) && decide ((g.k + g.l + 100) % 4 ≠ 0)) &&
          !(decide (g.k = 0) && decide ((g.h + g.l + 100) % 4 ≠ 0))))
      else
        .error (.nameError "name mask3 is not defined")
    else if ip = 2 then
      if plane = "c" ∨ plane = "n" then
        .ok (hkllist.filter (fun g =>
          !(decide (|g.h| = |g.k|) && decide ((g.l + 100) % 2 ≠ 0))))
      else if plane = "d" then
        .ok (hkllist.filter (fun g =>
          !(decide (|g.h| = |g.k|) && decide ((2 * g.h + g.l + 100) % 4 ≠ 0))))
      else
        .error (.nameError "name mask2 is not defined")
    else
      .ok hkllist
  else if latticeType = "trigonal" then
    if plane ≠ "c" then
      .error (.runtimeError
        "omitglideplaneabsences: only c-glide allowed for trigonal systems")
    else if ip = 1 then
      .ok (hkllist.filter (fun g =>
        !((decide (g.h = 0) && decide ((g.l + 100) % 2 ≠ 0)) ||
          (decide (g.k = 0) && decide ((g.l + 100) % 2 ≠ 0)) ||
          (decide (g.h = -g.k) && decide ((g.l + 100) % 2 ≠ 0)))))
    else if ip = 2 then
      .ok (hkllist.filter (fun g =>
        !((decide (g.k = g.h) && decide ((g.l + 100) % 2 ≠ 0)) ||
          (decide (g.h = -2 * g.k) && decide ((g.l + 100) % 2 ≠ 0)) ||
          (decide (-2 * g.h = g.k) && decide ((g.l + 100) % 2 ≠ 0)))))
    else
      .error (.nameError "name mask1 is not defined")
  else if latticeType = "hexagonal" then
    if plane ≠ "c" then
      .error (.runtimeError
        "omitglideplaneabsences: only c-glide allowed for hexagonal systems")
    else if ip = 2 then
      .ok (hkllist.filter (fun g =>
        !((decide (g.h = g.k) && decide ((g.l + 100) % 2 ≠ 0)) ||
          (decide (g.h = -2 * g.k) && decide ((g.l + 100) % 2 ≠ 0)) ||
          (decide (-2 * g.h = g.k) && decide ((g.l + 100) % 2 ≠ 0)))))
    else if ip = 1 then
      .ok (hkllist.filter (fun g =>
        !((decide (g.k = 0) && decide ((g.l + 100) % 2 ≠ 0)) ||
          (decide (g.h = 0) && decide ((g.l + 100) % 2 ≠ 0)) ||
          (decide (g.k = -g.h) && decide ((g.l + 100) % 2 ≠ 0)))))
    else
      .error (.nameError "name mask1 is not defined")
  else if latticeType = "cubic" then
    if ip = 0 then
      if plane = "a" then
        .ok (hkllist.filter (fun g =>
          !(((decide (g.h = 0) && decide ((g.k + 100) % 2 ≠ 0)) ||
             (decide (g.h = 0) && decide ((g.l + 100) % 2 ≠ 0))) ||
            ((decide (g.k = 0) && decide ((g.h + 100) % 2 ≠ 0)) ||
             (decide (g.k = 0) && decide ((g.l + 100) % 2 ≠ 0))) ||
            (decide (g.l = 0) && decide ((g.h + 100) % 2 ≠ 0)))))
      else if plane = "b" then
        .ok (hkllist.filter (fun g =>
          !((decide (g.h = 0) && decide ((g.k + 100) % 2 ≠ 0)) ||
            (decide (g.l = 0) && decide ((g.k + 100) % 2 ≠ 0)))))
      else if plane = "c" then
        .ok (hkllist.filter (fun g =>
          !((decide (g.h = 0) && decide ((g.l + 100) % 2 ≠ 0)) ||
            (decide (g.k = 0) && decide ((g.l + 100) % 2 ≠ 0)))))
      else if plane = "n" then
        .ok (hkllist.filter (fun g =>
          !(decide (g.h = 0) && decide ((g.k + g.l + 100) % 2 ≠ 0)) &&
          !(decide (g.k = 0) && decide ((g.h + g.l + 100) % 2 ≠ 0)) &&
          !(decide (g.l = 0) && decide ((g.h + g.k + 100) % 2 ≠ 0))))
      else if plane = "d" then
        .ok (hkllist.filter (fun g =>
          !(decide (g.h = 0) && decide ((g.k + g.l + 100) % 4 ≠ 0)) &&
          !(decide (g.k = 0) && decide ((g.h + g.l + 100) % 4 ≠ 0)) &&
          !(decide (g.l = 0) && decide ((g.h + g.k + 100) % 4 ≠ 0))))
      else
        .error (.runtimeError
          "omitglideplaneabsences: unknown glide plane encountered.")
    else if ip = 2 then
      if plane = "a" ∨ plane = "b" ∨ plane = "c" ∨ plane = "n" then
        .ok (hkllist.filter (fun g =>
          !(decide (|g.h| = |g.k|) && decide ((g.l + 100) % 2 ≠ 0)) &&
          !(decide (|g.k| = |g.l|) && decide ((g.h + 100) % 2 ≠ 0)) &&
          !(decide (|g.h| = |g.l|) && decide ((g.k + 100) % 2 ≠ 0))))
      else if plane = "d" then
        .ok (hkllist.filter (fun g =>
          !(decide (|g.h| = |g.k|) && decide ((2 * g.h + g.l + 100) % 4 ≠ 0)) &&
          !(decide (|g.k| = |g.l|) && decide ((g.h + 2 * g.k + 100) % 4 ≠ 0)) &&
          !(decide (|g.h| = |g.l|) && decide ((2 * g.h + g.k + 100) % 4 ≠ 0))))
      else
        .error (.runtimeError
          "omitglideplaneabsences: unknown glide plane encountered.")
    else
      .ok hkllist
  else
    .ok hkllist

/-- `NonSymmorphicAbsences` (the method bodies of the two material classes
are textually identical; this single definition embeds both): prune the
reflection list by the glide planes, then by the screw axes, of the space
group's `constants.SYS_AB` entry, skipping empty entries; the table itself
lives outside WPPF.py, so the entry arrives as the `planes`/`axes`
arguments (carried as material data).  Exceptions raised by the two
`omit*absences` helpers propagate. -/
def NonSymmorphicAbsences (latticeType : String) (planes axes : List String)
    (hkllist : List V3) : Except WErr (List V3) := do
  let hkl1 ← planes.enum.foldlM
    (fun hl q => if q.2 ≠ "" then omitglideplaneabsences latticeType hl q.2 q.1
                 else pure hl) hkllist
  axes.enum.foldlM
    (fun hl q => if q.2 ≠ "" then omitscrewaxisabsences latticeType hl q.2 q.1
                 else pure hl) hkl1

/-- The static data of a material that the reflection generator consumes:
Hermann–Mauguin symbol, symmorphicity flag, lattice type, the space
group's `constants.SYS_AB` entry (glide planes and screw axes — the table
lives outside WPPF.py, so the entry is carried as data), reciprocal
point-group operators (plain and with Laue/inversion symmetry), reciprocal
metric tensor, and the index bounds from `CalcMaxGIndex`. -/
structure MaterialSym where
  sg_hmsymbol : String
  symmorphic : Bool
  latticeType : String
  sys_ab_planes : List String
  sys_ab_axes : List String
  SYM_PG_r : List M3i
  SYM_PG_r_laue : List M3i
  rmt : M3q
  ih : ℕ
  ik : ℕ
  il : ℕ

/-- `Allowed_HKLs` (the method bodies of `Material_LeBail.Allowed_HKLs`
and `Material_Rietveld.Allowed_HKLs` are textually identical; this single
definition embeds both): filter by the lattice-centering rule of the first
letter of the Hermann–Mauguin symbol (raising `RuntimeError` on an unknown
symbol), then apply `NonSymmorphicAbsences` when the space group is not
symmorphic. -/
def Allowed_HKLs (m : MaterialSym) (hkllist : List V3) : Except WErr (List V3) :=
  match m.sg_hmsymbol.toList with
  | [] => .error (.runtimeError "IndexError: empty Hermann-Mauguin symbol")
  | centering :: _ =>
    if centering ∈ knownCenterings then
      let hkls := hkllist.filter (fun g => centeringCond centering g)
      if m.symmorphic then .ok hkls
      else NonSymmorphicAbsences m.latticeType m.sys_ab_planes m.sys_ab_axes hkls
    else
      .error (.runtimeError "IsGAllowed: unknown lattice centering encountered.")

/-- `np.argmax` over a list of integers: index of the first maximum. -/
def npArgmaxAux : List ℤ → ℤ → ℕ → ℕ → ℕ
  | [], _, _, best => best
  | x :: t, bv, cur, best =>
      if bv < x then npArgmaxAux t x (cur + 1) (cur + 1)
      else npArgmaxAux t bv (cur + 1) best

/-- `np.argmax` (0 on the empty list; numpy raises there). -/
def npArgmax : List ℤ → ℕ
  | [] => 0
  | a :: t => npArgmaxAux t a 0 0

/-- Phase 1 of `ChooseSymmetric`: the visited mask.  For each index `i`
still masked-in, every *other* member of the star of `hkllist[i]`
(`geqv[1:]`) is masked out wherever it occurs in the list. -/
def chooseSymMask (symL : List M3i) (l : List V3) : List Bool :=
  (List.range l.length).foldl
    (fun mask i =>
      if mask.getD i false then
        let star := CalcStar symL (l.getD i default)
        let rest := star.tail
        List.zipWith (fun m g => if g ∈ rest then false else m) mask l
      else mask)
    (List.replicate l.length true)

/-- `ChooseSymmetric(hkllist, InversionSymmetry=True)`: deduplicate to one
representative per symmetry star, then replace each survivor by the star
member with the maximal component sum (`np.argmax` of the row sums). -/
def ChooseSymmetric (symL : List M3i) (l : List V3) : List V3 :=
  let mask := chooseSymMask symL l
  let kept := ((l.zip mask).filter (fun p => p.2)).map Prod.fst
  kept.map (fun g =>
    let geqv := CalcStar symL g
    let loc := npArgmax (geqv.map V3.compSum)
    geqv.getD loc default)

/-- The composite sort key of `SortHKL`, lexicographically ordered:
(reciprocal length rounded to 8 decimals, max component, component sum,
l, k, h). -/
def sortKey (prim : PrimFns) (rmt : M3q) (g : V3) :
    Lex (ℚ × Lex (ℤ × Lex (ℤ × Lex (ℤ × Lex (ℤ × ℤ))))) :=
  toLex (npRound8 (CalcLength prim rmt g),
    toLex (g.maxComp, toLex (g.compSum, toLex (g.l, toLex (g.k, g.h)))))

/-- The boolean comparison `SortHKL` sorts with. -/
def sortKeyLe (prim : PrimFns) (rmt : M3q) (a b : V3) : Bool :=
  decide (sortKey prim rmt a ≤ sortKey prim rmt b)

/-- `SortHKL` (the method bodies of `Material_LeBail.SortHKL` and
`Material_Rietveld.SortHKL` are textually identical; this single definition
embeds both): `np.argsort` over the record array
`(glen, max, sum, h, k, l)` with `order=['glen','max','sum','l','k','h']`,
i.e. a sort by the lexicographic composite key. -/
def SortHKL (prim : PrimFns) (rmt : M3q) (l : List V3) : List V3 :=
  l.mergeSort (sortKeyLe prim rmt)

/-- `np.arange(n, -n-1, -1)`: `[n, n-1, …, -n]`. -/
def arangeDesc (n : ℕ) : List ℤ :=
  (List.range (2 * n + 1)).map (fun t => (n : ℤ) - t)

/-- `np.arange(n, -1, -1)`: `[n, n-1, …, 0]`. -/
def arangeDesc0 (n : ℕ) : List ℤ :=
  (List.range (n + 1)).map (fun t => (n : ℤ) - t)

/-- `Material_LeBail.getHKLs(dmin)`: enumerate the candidate box (`l ≥ 0`
by Friedel's law), apply `Allowed_HKLs`, drop `[0,0,0]` and every triple
with d-spacing `1/|g|` below `dmin`, reduce with `ChooseSymmetric`, and
sort with `SortHKL`. -/
def Material_LeBail.getHKLs (prim : PrimFns) (m : MaterialSym) (dmin : ℚ) :
    Except WErr (List V3) := do
  let cands := (arangeDesc m.ih).flatMap (fun ih =>
    (arangeDesc m.ik).flatMap (fun ik =>
      (arangeDesc0 m.il).map (fun il => V3.mk ih ik il)))
  let hkl_allowed ← Allowed_HKLs m cands
  let hkl_dsp := hkl_allowed.filter
    (fun g => g.sumAbs ≠ 0 ∧ dmin ≤ 1 / CalcLength prim m.rmt g)
  let hkl := ChooseSymmetric m.SYM_PG_r_laue hkl_dsp
  pure (SortHKL prim m.rmt hkl)

/-- `Material_Rietveld.getHKLs(dmin)`: textually identical to the LeBail
version, additionally returning each reflection's multiplicity
(`CalcStar(g, 'r').shape[0]` without Laue symmetry). -/
def Material_Rietveld.getHKLs (prim : PrimFns) (m : MaterialSym) (dmin : ℚ) :
    Except WErr (List V3 × List ℕ) := do
  let hkls ← Material_LeBail.getHKLs prim m dmin
  pure (hkls, hkls.map (fun g => (CalcStar m.SYM_PG_r g).length))


/-!  ## LeBail refinement engine  -/

/-- The per-phase data the LeBail refinement loop reads and mutates:
lattice parameters, lattice system, the (fixed) unique hkl list, and the
metric tensors. -/
structure MaterialData where
  lparms : List ℚ
  latticeType : String
  hkls : List V3
  dmt : M3q
  vol : ℚ
  rmt : M3q
deriving DecidableEq

instance : Inhabited MaterialData := ⟨[], "cubic", [], M3q.id, 1, M3q.id⟩

/-- `_rqpDict[latticeType][1]`: rebuild the six lattice parameters from the
reduced refinable set (`Required_lp`); out-of-range accesses (`p[i]` on a
too-short list, an `IndexError` in Python) return the junk value 0. -/
def Required_lp (latticeType : String) (p : List ℚ) : List ℚ :=
  let p0 := p.getD 0 0
  let p1 := p.getD 1 0
  let p2 := p.getD 2 0
  let p3 := p.getD 3 0
  if latticeType = "triclinic" then p
  else if latticeType = "monoclinic" then [p0, p1, p2, 90, p3, 90]
  else if latticeType = "orthorhombic" then [p0, p1, p2, 90, 90, 90]
  else if latticeType = "tetragonal" then [p0, p0, p1, 90, 90, 90]
  else if latticeType = "trigonal" then [p0, p0, p1, 90, 90, 120]
  else if latticeType = "hexagonal" then [p0, p0, p1, 90, 90, 120]
  else if latticeType = "cubic" then [p0, p0, p0, 90, 90, 90]
  else []

/-- `Material_LeBail.getTTh(wavelength)`: for each stored hkl, the Bragg
angle `2·asin(λ·|g|/2)` in degrees, keeping only reflections with
`|sinθ| ≤ 1`. -/
def getTTh (prim : PrimFns) (mat : MaterialData) (wavelength : ℚ) : List ℚ :=
  mat.hkls.foldl
    (fun tth g =>
      let glen := CalcLength prim mat.rmt g
      let sth := glen * wavelength / 2
      if |sth| ≤ 1 then tth ++ [2 * degrees prim (prim.arcsin sth)] else tth)
    []

/-- An `lmfit` parameter: name, trial value, bounds, vary flag
(`lmfit.Parameters.add` leaves `vary=True`). -/
structure LmParam where
  name : String
  value : ℚ
  lb : PyVal
  ub : PyVal
  vary : Bool
deriving DecidableEq

/-- The state of a `LeBail` object (the fields the refinement loop touches).
The two-theta and intensity dictionaries keyed by phase name and wavelength
key are insertion-ordered association lists, as Python dicts are. -/
structure LeBailState where
  phases : List (String × MaterialData)
  wavelength : List (String × ℚ)
  tth_min : ℚ
  tth_max : ℚ
  spectrum_expt : Spectrum
  weights : List ℚ
  background : Spectrum
  tth : List (String × List (String × List ℚ))
  Icalc : List (String × List (String × List ℚ))
  Iobs : List (String × List (String × List ℚ))
  spectrum_sim : Spectrum
  err : Spectrum
  params : Parameters
  U : ℚ
  V : ℚ
  W : ℚ
  P : ℚ
  X : ℚ
  Y : ℚ
  eta1 : ℚ
  eta2 : ℚ
  eta3 : ℚ
  zero_error : ℚ
  Rwp : ℚ
  gofF : ℚ
  niter : ℕ
  Rwplist : List ℚ
  gofFlist : List ℚ
deriving DecidableEq

instance : Inhabited LeBailState :=
  ⟨[], [], 0, 0, default, [], default, [], [], [], default, default, [],
   0, 0, 0, 0, 0, 0, 0, 0, 0, 0, 0, 0, 0, [], []⟩

/-- The `tth_list` property: `spectrum_expt._x`. -/
def tth_list (st : LeBailState) : List ℚ := st.spectrum_expt.x

/-- `self.tth[p][k]` / `self.Icalc[p][k]`-style nested dictionary access
(the embedded call sites access keys the loops just built; a missing key,
a `KeyError` in Python, yields the junk value `[]`). -/
def dget2 (d : List (String × List (String × List ℚ))) (p k : String) : List ℚ :=
  ((alookup d p).bind (fun inner => alookup inner k)).getD []

/-- `CagliottiH(tth)`: Gaussian width from the Cagliotti relation, with a
negative `H²` clamped to `1e-12`. -/
def CagliottiH (prim : PrimFns) (U V W tth : ℚ) : ℚ :=
  let th := radians prim (0.5 * tth)
  let tanth := prim.tan th
  let Hsq := U * tanth ^ 2 + V * tanth + W
  let Hsq := if Hsq < 0 then 1 / 1000000000000 else Hsq
  prim.sqrt Hsq

/-- `LorentzH(tth)`: Lorentzian half-width `X/cosθ + Y·tanθ`. -/
def LorentzH (prim : PrimFns) (X Y tth : ℚ) : ℚ :=
  let th := radians prim (0.5 * tth)
  X / prim.cos th + Y * prim.tan th

/-- `MixingFact(tth)`: `η = η₁ + η₂·(2θ) + η₃·(2θ)²` clamped to `[0, 1]`. -/
def MixingFact (eta1 eta2 eta3 tth : ℚ) : ℚ :=
  let eta := eta1 + eta2 * tth + eta3 * tth ^ 2
  if 1 < eta then 1 else if eta < 0 then 0 else eta

/-- `Gaussian(tth)`: the Gaussian profile over the grid,
`(sqrt(cg/π)/H)·exp(−cg·((x−2θ)/H)²)` with `cg = 4·ln 2`. -/
def GaussianProf (prim : PrimFns) (H : ℚ) (grid : List ℚ) (tth : ℚ) : List ℚ :=
  let cg := 4 * prim.log 2
  grid.map (fun x => prim.sqrt (cg / prim.pi) / H * prim.exp (-cg * ((x - tth) / H) ^ 2))

/-- `Lorentzian(tth)`: `(2/π/γ)/(1 + 4·((x−2θ)/γ)²)` over the grid. -/
def LorentzProf (prim : PrimFns) (gamma : ℚ) (grid : List ℚ) (tth : ℚ) : List ℚ :=
  grid.map (fun x => 2 / prim.pi / gamma / (1 + 4 * ((x - tth) / gamma) ^ 2))

/-- `PseudoVoight(tth)`: `η·Gaussian + (1−η)·Lorentzian` over the grid (the
source stores intermediates in instance attributes; each call recomputes
them, so the chain is modelled as a pure function). -/
def PseudoVoight (prim : PrimFns) (U V W X Y eta1 eta2 eta3 : ℚ)
    (grid : List ℚ) (tth : ℚ) : List ℚ :=
  let H := CagliottiH prim U V W tth
  let G := GaussianProf prim H grid tth
  let gam := LorentzH prim X Y tth
  let L := LorentzProf prim gam grid tth
  let eta := MixingFact eta1 eta2 eta3 tth
  List.zipWith (fun gi li => eta * gi + (1 - eta) * li) G L

/-- The pseudo-Voigt profile of the current state at center `t`. -/
def statePV (prim : PrimFns) (st : LeBailState) (t : ℚ) : List ℚ :=
  PseudoVoight prim st.U st.V st.W st.X st.Y st.eta1 st.eta2 st.eta3 (tth_list st) t

/-- `calctth`: rebuild the two-theta dictionary — per phase, per wavelength,
`getTTh` filtered to the experimental window `[tth_min, tth_max]`. -/
def calctth (prim : PrimFns) (st : LeBailState) : LeBailState :=
  { st with tth := st.phases.map (fun pp =>
      (pp.1, st.wavelength.map (fun kl =>
        (kl.1, (getTTh prim pp.2 kl.2).filter
          (fun t => st.tth_min ≤ t ∧ t ≤ st.tth_max))))) }

/-- The accumulation loop of `computespectrum`: sum
`Icalc[i] · PV(tth[i] + zero_error)` over every phase, wavelength and
reflection (up to the common length of the two-theta and intensity
arrays). -/
def computespectrumY (prim : PrimFns) (st : LeBailState) : List ℚ :=
  st.phases.foldl (fun y pp =>
    st.wavelength.foldl (fun y kl =>
      let Ic := dget2 st.Icalc pp.1 kl.1
      let tth := (dget2 st.tth pp.1 kl.1).map (fun t => t + st.zero_error)
      let n := min tth.length Ic.length
      (List.range n).foldl (fun y i =>
        let t := tth.getD i 0
        let PV := statePV prim st t
        List.zipWith (fun yv pv => yv + Ic.getD i 0 * pv) y PV) y) y)
    (List.replicate (tth_list st).length (0 : ℚ))

/-- `computespectrum`:
`spectrum_sim = Spectrum(tth_list, y) + background`. -/
def computespectrum (prim : PrimFns) (st : LeBailState) : Except WErr LeBailState := do
  let ssim ← Spectrum.add (Spectrum.ofXY (tth_list st) (computespectrumY prim st) "")
    st.background
  pure { st with spectrum_sim := ssim }

/-- The list of extracted observed intensities of one (phase, wavelength)
channel: for each reflection `i` up to the common length `n`,
`trapz(yo · (PV_i · Ic[i]) / yc, tth_list)`. -/
def IobsChannel (prim : PrimFns) (st : LeBailState) (yo yc : List ℚ)
    (p k : String) : List ℚ :=
  let Ic := dget2 st.Icalc p k
  let tth := (dget2 st.tth p k).map (fun t => t + st.zero_error)
  let n := min tth.length Ic.length
  (List.range n).map (fun i =>
    let t := tth.getD i 0
    let PV := statePV prim st t
    let y := PV.map (fun pv => pv * Ic.getD i 0)
    trapz (zipWith3 (fun a b c => a * b / c) yo y yc) (tth_list st))

/-- `CalcIobs`: the LeBail intensity partition.  The experimental and
simulated `data` reads are loop-invariant and effect-free, hoisted out of
the source's per-reflection loop. -/
def CalcIobs (prim : PrimFns) (st : LeBailState) : Except WErr LeBailState := do
  let od ← st.spectrum_expt.data
  let cd ← st.spectrum_sim.data
  let yo := od.2
  let yc := cd.2
  pure { st with Iobs := st.phases.map (fun pp =>
    (pp.1, st.wavelength.map (fun kl =>
      (kl.1, IobsChannel prim st yo yc pp.1 kl.1)))) }

/-- `setattr(self, p, params[p].value)` for the parameter names that are
attributes of the `LeBail` object (the peak-shape coefficients and the
zero-shift; other names fail the `hasattr` test and are skipped). -/
def applyShapeParam (st : LeBailState) (name : String) (v : ℚ) : LeBailState :=
  if name = "U" then { st with U := v }
  else if name = "V" then { st with V := v }
  else if name = "W" then { st with W := v }
  else if name = "P" then { st with P := v }
  else if name = "X" then { st with X := v }
  else if name = "Y" then { st with Y := v }
  else if name = "eta1" then { st with eta1 := v }
  else if name = "eta2" then { st with eta2 := v }
  else if name = "eta3" then { st with eta3 := v }
  else if name = "zero_error" then { st with zero_error := v }
  else st

/-- First-match lookup of an lmfit parameter by name (`p in params` /
`params[p]`). -/
def lmfind : List LmParam → String → Option LmParam
  | [], _ => none
  | p :: t, key => if p.name = key then some p else lmfind t key

/-- The lattice-parameter collection loop of `calcRwp`: for each of
`a, b, c, alpha, beta, gamma` prefixed with the phase name, append the
value when the parameter is present and varying. -/
def latticeCollect (ps : List LmParam) (pre : String) : List ℚ :=
  (["a", "b", "c", "alpha", "beta", "gamma"]).foldl
    (fun lp n =>
      match lmfind ps (pre ++ n) with
      | some par => if par.vary then lp ++ [par.value] else lp
      | none => lp)
    []

/-- The per-phase lattice update of `calcRwp`: when any lattice parameter of
the phase varies, rebuild the full parameter list with `Required_lp` and
recompute the metric tensors with `_calcrmt`. -/
def updatePhaseLattice (prim : PrimFns) (ps : List LmParam)
    (pp : String × MaterialData) : String × MaterialData :=
  let lp := latticeCollect ps (pp.1 ++ "_")
  if lp.isEmpty then pp
  else
    let lp2 := Required_lp pp.2.latticeType lp
    let r := calcrmt prim lp2
    (pp.1, { pp.2 with lparms := lp2, dmt := r.1, vol := r.2.1, rmt := r.2.2 })

/-- The weighted sum of squares `np.trapz(weights · err_y², err_x)`. -/
def calc_wss (weights : List ℚ) (errS : Spectrum) : ℚ :=
  trapz (List.zipWith (fun w e => w * e ^ 2) weights errS.y) errS.x

/-- The denominator `np.trapz(weights · sim_y², sim_x)`. -/
def calc_den (weights : List ℚ) (sim : Spectrum) : ℚ :=
  trapz (List.zipWith (fun w s => w * s ^ 2) weights sim.y) sim.x

/-- The pure prefix of `calcRwp`: push the trial values onto the
peak-shape attributes, update the varying lattice parameters and metric
tensors of every phase, and rebuild the two-theta dictionary. -/
def calcRwp_prestate (prim : PrimFns) (ps : List LmParam) (st : LeBailState) :
    LeBailState :=
  let st := ps.foldl (fun s p => applyShapeParam s p.name p.value) st
  let st := { st with phases := st.phases.map (updatePhaseLattice prim ps) }
  calctth prim st

/-- `calcRwp(params)`: push the trial values into the model, recompute
two-theta positions and the simulated spectrum, form the weighted residual
vector, and store `Rwp` and `gofF`. -/
def calcRwp (prim : PrimFns) (ps : List LmParam) (st : LeBailState) :
    Except WErr (LeBailState × List ℚ) := do
  let st ← computespectrum prim (calcRwp_prestate prim ps st)
  let errS ← Spectrum.sub st.spectrum_sim st.spectrum_expt
  let st := { st with err := errS }
  let errvec := List.zipWith (fun w e => prim.sqrt (w * e ^ 2)) st.weights errS.y
  let wss := calc_wss st.weights errS
  let den := calc_den st.weights st.spectrum_sim
  let Rwp := prim.sqrt (wss / den)
  let N := st.spectrum_sim.y.length
  let P := ps.length
  let Rexp := prim.sqrt (((N : ℚ) - (P : ℚ)) / den)
  let st := { st with Rwp := Rwp, gofF := (Rwp / Rexp) ^ 2 }
  pure (st, errvec)

/-- `initialize_lmfit_parameters`: expose exactly the varying parameters to
the solver, with their current values and bounds (`lmfit` adds them with
`vary = True`). -/
def initialize_lmfit_parameters (st : LeBailState) : List LmParam :=
  st.params.filterMap (fun kv =>
    if kv.2.vary then some ⟨kv.1, kv.2.value, kv.2.lb, kv.2.ub, true⟩ else none)

/-- Install a trial value vector from the solver onto the lmfit parameter
list (`lmfit` perturbs the values of the same parameter objects). -/
def setValues : List LmParam → List ℚ → List LmParam
  | ps, [] => ps
  | [], _ => []
  | p :: ps, v :: vs => { p with value := v } :: setValues ps vs

/-- The external bounded least-squares solver, as a black box: given the
initial lmfit parameters it performs a sequence of residual evaluations
(`trials`, the value vectors it calls `calcRwp` with) and returns the
converged parameter list (`res.params`). -/
structure SolverResult where
  trials : List (List ℚ)
  final : List LmParam

/-- A solver strategy. -/
abbrev Solver := List LmParam → SolverResult

/-- `Refine`: build the lmfit parameters, run the solver (each residual
evaluation is a `calcRwp` call mutating the model state), and return the
final state together with the converged parameters. -/
def Refine (prim : PrimFns) (solver : Solver) (st : LeBailState) :
    Except WErr (LeBailState × List LmParam) := do
  let params := initialize_lmfit_parameters st
  let r := solver params
  let st ← r.trials.foldlM
    (fun s t => (calcRwp prim (setValues params t) s).map Prod.fst) st
  pure (st, r.final)

/-- `update_parameters`: copy each converged solver value back into the
`ParameterSet` (`self.params[p].value = par.value`; a missing name raises
the `ValueError` of `Parameters.__getitem__`). -/
def copyValues (ps : Parameters) (resparams : List LmParam) : Except WErr Parameters :=
  resparams.foldlM
    (fun ps rp => do
      let par ← Parameters.get ps rp.name
      pure (Parameters.set ps rp.name { par with value := rp.value }))
    ps

/-- See `copyValues`. -/
def update_parameters (st : LeBailState) (resparams : List LmParam) :
    Except WErr LeBailState := do
  let ps ← copyValues st.params resparams
  pure { st with params := ps }

/-- `RefineCycle`: extract the observed intensities, adopt them as the new
calculated intensities, run `Refine`, copy the converged values back,
increment the iteration counter, and append `Rwp` and `gofF` to their
histories. -/
def RefineCycle (prim : PrimFns) (solver : Solver) (st : LeBailState) :
    Except WErr LeBailState := do
  let st ← CalcIobs prim st
  let st := { st with Icalc := st.Iobs }
  let rr ← Refine prim solver st
  let st ← update_parameters rr.1 rr.2
  let st := { st with niter := st.niter + 1 }
  pure { st with Rwplist := st.Rwplist ++ [st.Rwp], gofFlist := st.gofFlist ++ [st.gofF] }

/-- The default parameter names of `LeBail.initialize_parameters`
(`param_file = None`). -/
def default_param_names : List String :=
  ["a", "b", "c", "alpha", "beta", "gamma",
   "U", "V", "W", "eta1", "eta2", "eta3", "tth_zero"]

/-- The default parameter values (lattice constants for CeO2). -/
def default_param_values : List ℚ :=
  [5415/1000, 5415/1000, 5415/1000, 90, 90, 90,
   1/2, 1/2, 1/2, 1/1000, 1/1000, 1/1000, 0]

/-- `LeBail.initialize_parameters` with `param_file = None`: build the
default `Parameters` with `add_many`, then read the shape parameters
`U, V, W, P, X, Y, eta1, eta2, eta3, zero_error` from it through
`Parameters.__getitem__`. -/
def initialize_parameters_default : Except WErr Parameters := do
  let params := Parameters.add_many [] default_param_names
    (List.replicate 13 false) default_param_values
    (List.replicate 13 .ninf) (List.replicate 13 .pinf)
  let _U ← Parameters.get params "U"
  let _V ← Parameters.get params "V"
  let _W ← Parameters.get params "W"
  let _P ← Parameters.get params "P"
  let _X ← Parameters.get params "X"
  let _Y ← Parameters.get params "Y"
  let _e1 ← Parameters.get params "eta1"
  let _e2 ← Parameters.get params "eta2"
  let _e3 ← Parameters.get params "eta3"
  let _z ← Parameters.get params "zero_error"
  pure params

/-!  ## Concrete instances used by witnesses and counterexamples  -/

/-- A computable interpretation of the numpy primitives (each theorem above
the concrete instances holds for every interpretation; the witnesses pick
this one so the embedded code can be evaluated exactly). -/
def prim0 : PrimFns :=
  ⟨fun q => q, fun q => q, fun q => q, fun q => q, fun q => q, fun q => q, 180⟩

/-- A three-point experimental spectrum on the grid `[0, 1, 3]`. -/
def exptSpec0 : Spectrum := Spectrum.ofXY [0, 1, 3] [1, 4, 1] "expt"

/-- A constant background on the same grid. -/
def bkgSpec0 : Spectrum := Spectrum.ofXY [0, 1, 3] [2, 2, 2] "bkg"

/-- A LeBail state with no phases: `calcRwp` then simulates exactly the
background.  `weights = 1/sqrt(expt_y)` as `initialize_expt_spectrum`
computes them (`1/sqrt 1 = 1`, `1/sqrt 4 = 1/2`). -/
def st2c : LeBailState :=
  { phases := [], wavelength := [], tth_min := 0, tth_max := 3,
    spectrum_expt := exptSpec0, weights := [1, 1/2, 1], background := bkgSpec0,
    tth := [], Icalc := [], Iobs := [], spectrum_sim := default, err := default,
    params := [], U := 0, V := 0, W := 0, P := 0, X := 0, Y := 0,
    eta1 := 0, eta2 := 0, eta3 := 0, zero_error := 0,
    Rwp := 0, gofF := 0, niter := 0, Rwplist := [], gofFlist := [] }

/-- A solver performing exactly one residual evaluation at the initial
parameter values and returning them unchanged. -/
def solver0 : Solver := fun _ => ⟨[[]], []⟩

/-- The state after one `RefineCycle` on `st2c`. -/
def st2cPost : LeBailState := (RefineCycle prim0 solver0 st2c).toOption.getD default

/-- A cubic single-reflection phase with the identity reciprocal metric. -/
def mat1 : MaterialData :=
  { lparms := [1, 1, 1, 90, 90, 90], latticeType := "cubic",
    hkls := [⟨1, 0, 0⟩], dmt := M3q.id, vol := 1, rmt := M3q.id }

/-- A one-phase, one-wavelength, one-reflection LeBail state. -/
def st1c : LeBailState :=
  { phases := [("p1", mat1)], wavelength := [("k1", 1)], tth_min := 0, tth_max := 3,
    spectrum_expt := exptSpec0, weights := [1, 1/2, 1], background := bkgSpec0,
    tth := [("p1", [("k1", [1])])], Icalc := [("p1", [("k1", [1000])])],
    Iobs := [], spectrum_sim := Spectrum.ofXY [0, 1, 3] [5, 5, 5] "",
    err := default, params := [],
    U := 0, V := 0, W := 1, P := 0, X := 1, Y := 0,
    eta1 := 0, eta2 := 0, eta3 := 0, zero_error := 0,
    Rwp := 0, gofF := 0, niter := 0, Rwplist := [], gofFlist := [] }

/-- The state after `CalcIobs` on `st1c`. -/
def st1cIobs : LeBailState := (CalcIobs prim0 st1c).toOption.getD default

/-- The state after one `RefineCycle` on `st1c`. -/
def st1cPost : LeBailState := (RefineCycle prim0 solver0 st1c).toOption.getD default

/-- The claimed (spec-worded) weighted-profile residual, built from plain
sums over the grid points rather than the trapezoidal integrals the source
uses: `Rwp = sqrt(Σᵢ wᵢ·(simᵢ−obsᵢ)² / Σᵢ wᵢ·simᵢ²)`. -/
def Rwp_spec_sum (prim : PrimFns) (weights simY obsY : List ℚ) : ℚ :=
  prim.sqrt ((zipWith3 (fun w s o => w * (s - o) ^ 2) weights simY obsY).sum /
    (List.zipWith (fun w s => w * s ^ 2) weights simY).sum)

/-- A symmorphic body-centred tetragonal material for the centering-rule
witness. -/
def mC4 : MaterialSym :=
  { sg_hmsymbol := "I4/mmm", symmorphic := true, latticeType := "tetragonal",
    sys_ab_planes := ["", "", ""], sys_ab_axes := ["", "", ""],
    SYM_PG_r := [default], SYM_PG_r_laue := [default],
    rmt := M3q.id, ih := 1, ik := 1, il := 1 }

/-- Modelled from the spec: the per-space-group glide/screw table
`constants.SYS_AB` read by `NonSymmorphicAbsences` is not part of WPPF.py,
so its entry is carried as material data.  For space group 4 (`P2_1`,
monoclinic, standard unique `b`-axis setting) the spec's table-driven
absence rules give no glide planes and a single `2_1` screw axis on the
secondary (`b`) axis — the textbook `0k0 : k = 2n` reflection condition.
A non-symmorphic primitive monoclinic material with this entry. -/
def mP21 : MaterialSym :=
  { sg_hmsymbol := "P2_1", symmorphic := false, latticeType := "monoclinic",
    sys_ab_planes := ["", "", ""], sys_ab_axes := ["", "2_1", ""],
    SYM_PG_r := [default], SYM_PG_r_laue := [default],
    rmt := M3q.id, ih := 1, ik := 1, il := 1 }

/-- A concrete candidate list for the centering-rule witness. -/
def lC4 : List V3 :=
  [⟨1, 0, 0⟩, ⟨1, 1, 0⟩, ⟨1, 1, 1⟩, ⟨-1, 2, 1⟩, ⟨2, 0, 0⟩, ⟨0, -1, 1⟩]

/-- A primitive triclinic-symbol material (identity metric, identity
point group) for the reflection-generator witnesses. -/
def m5 : MaterialSym :=
  { sg_hmsymbol := "P1", symmorphic := true, latticeType := "triclinic",
    sys_ab_planes := ["", "", ""], sys_ab_axes := ["", "", ""],
    SYM_PG_r := [default], SYM_PG_r_laue := [default],
    rmt := M3q.id, ih := 1, ik := 1, il := 1 }

/-- The reflection list `getHKLs` generates for `m5` at `dmin = 1/2`. -/
def out5 : List V3 :=
  (Material_LeBail.getHKLs prim0 m5 (1/2)).toOption.getD []

/-- First operand of the spectrum-arithmetic counterexample: three samples
on `[0, 1, 2]`. -/
def s3a : Spectrum := Spectrum.ofXY [0, 1, 2] [5, 5, 5] "s1"

/-- Second operand: two samples on `[0, 2]`, constant value 1. -/
def s3b : Spectrum := Spectrum.ofXY [0, 2] [1, 1] "s2"

/-- Two equal-length spectra with disjoint two-theta ranges. -/
def s7a : Spectrum := Spectrum.ofXY [0, 1] [3, 3] "a"

/-- See `s7a`. -/
def s7b : Spectrum := Spectrum.ofXY [10, 11] [2, 2] "c"

/-- A background spectrum whose range does not overlap `[0, 1]`. -/
def s7bkg : Spectrum := Spectrum.ofXY [10, 11] [1, 1] "b"

/-- A signal on `[0, 1]` with `s7bkg` attached as `bkg_Spectrum`. -/
def s7sig : Spectrum := Spectrum.mk [0, 1] [1, 1] "sig" 0 1 0 (some s7bkg)

/-- The refinement-loop state fields that `calcRwp` and `CalcIobs` never
write: used to track them through the solver's residual evaluations. -/
def sameCore (a b : LeBailState) : Prop :=
  a.params = b.params ∧ a.weights = b.weights ∧ a.niter = b.niter ∧
  a.Rwplist = b.Rwplist ∧ a.gofFlist = b.gofFlist ∧ a.spectrum_expt = b.spectrum_expt

/-!  ## Supporting lemmas  -/

theorem map_scale_one (y : List ℚ) : y.map (fun v => v * 1 + 0) = y := by
  induction y with
  | nil => rfl
  | cons a t ih => simp [ih]

theorem zipWith_add_sub_cancel :
    ∀ (y yb : List ℚ), y.length = yb.length →
      List.zipWith (fun u v => u - v) (List.zipWith (fun u v => u + v) y yb) yb = y
  | [], _, _ => rfl
  | a :: t, [], h => by simp at h
  | a :: t, b :: tb, h => by
    have ih := zipWith_add_sub_cancel t tb (by simpa using h)
    simp [ih]

/-!  ## Claim theorems  -/

unseal Rat.add Rat.mul Rat.sub Rat.inv Rat.ofScientific in
/-- C3.  The spec says `+`/`−` on spectra with different grids interpolate
the *second spectrum's y-values* onto the overlap of the grids; the code
builds `interp1d(other_x, other_x)` — interpolating the second grid's
x-values against themselves, the identity map — so it adds/subtracts the
grid positions instead of the interpolated intensities (the source even
carries a `todo: different shape subtraction of spectra seems the fail
somehow` comment).  Concretely: `s3a` has y ≡ 5 on `[0,1,2]`, `s3b` has
y ≡ 1 on `[0,2]`; the interpolated y-values are `[1,1,1]`, so the spec
demands `5∓1` throughout, but the code returns `5 − x` resp. `5 + x`. -/
theorem C3_sub_add_interpolate_x_not_y :
    Spectrum.sub s3a s3b = .ok (Spectrum.ofXY [0, 1, 2] [5, 4, 3] "") ∧
    Spectrum.add s3a s3b = .ok (Spectrum.ofXY [0, 1, 2] [5, 6, 7] "") ∧
    ([0, 1, 2] : List ℚ).map (fun t => interp1dLinear (List.zip [0, 2] [1, 1]) t)
      = [1, 1, 1] ∧
    ([5, 4, 3] : List ℚ) ≠ [5 - 1, 5 - 1, 5 - 1] ∧
    ([5, 6, 7] : List ℚ) ≠ [5 + 1, 5 + 1, 5 + 1] := by
  refine ⟨by decide, by decide, by decide, by decide, by decide⟩

/-- C7 (amended).  `Spectrum.data` raises `BkgNotInRangeError` whenever the
attached background's grid differs from the signal grid and their ranges do
not overlap; `__sub__`/`__add__` raise it whenever the two grids have
*different lengths* (numpy shapes) and non-overlapping ranges.  (As stated
the claim is false for equal-length spectra with disjoint ranges — see the
counterexample — because the operators compare shapes, not grids.) -/
theorem C7_domain_mismatch_raises :
    (∀ (x y : List ℚ) (name : String) (offset scaling : ℚ) (b : Spectrum)
       (xb yb : List ℚ),
       b.data = .ok (xb, yb) → xb ≠ x →
       (x.zip y).filter (fun p => p.1 ≤ npMax xb ∧ npMin xb ≤ p.1) = [] →
       (Spectrum.mk x y name offset scaling 0 (some b)).data
         = .error (.bkgNotInRange name)) ∧
    (∀ (s1 s2 : Spectrum) (x1 y1 x2 y2 : List ℚ),
       s1.data = .ok (x1, y1) → s2.data = .ok (x2, y2) → x1.length ≠ x2.length →
       (x1.zip y1).filter (fun p => p.1 ≤ npMax x2 ∧ npMin x2 ≤ p.1) = [] →
       Spectrum.sub s1 s2 = .error (.bkgNotInRange s1.name) ∧
       Spectrum.add s1 s2 = .error (.bkgNotInRange s1.name)) := by
  constructor
  · intro x y name offset scaling b xb yb hb hne hfil
    have hfil2 : List.filter
        (fun p => decide (p.1 ≤ npMax xb) && decide (npMin xb ≤ p.1)) (x.zip y) = [] := by
      simpa using hfil
    simp only [Spectrum.data, hb, bind, Except.bind]
    rw [if_neg hne]
    simp [hfil2]
  · intro s1 s2 x1 y1 x2 y2 h1 h2 hlen hfil
    have hfil2 : List.filter
        (fun p => decide (p.1 ≤ npMax x2) && decide (npMin x2 ≤ p.1)) (x1.zip y1) = [] := by
      simpa using hfil
    constructor
    · simp only [Spectrum.sub, h1, h2, bind, Except.bind]
      rw [if_pos hlen]
      simp [hfil2]
      all_goals rfl
    · simp only [Spectrum.add, h1, h2, bind, Except.bind]
      rw [if_pos hlen]
      simp [hfil2]
      all_goals rfl

unseal Rat.add Rat.mul Rat.sub Rat.inv Rat.ofScientific in
/-- Witness for C7: a background on `[10,11]` attached to a signal on
`[0,1]` makes `data` raise, and spectra of lengths 2 and 3 with disjoint
ranges make `−` and `+` raise. -/
theorem C7_witness :
    s7sig.data = .error (.bkgNotInRange "sig") ∧
    Spectrum.sub s7a (Spectrum.ofXY [10, 11, 12] [2, 2, 2] "v")
      = .error (.bkgNotInRange "a") ∧
    Spectrum.add s7a (Spectrum.ofXY [10, 11, 12] [2, 2, 2] "v")
      = .error (.bkgNotInRange "a") := by
  refine ⟨?_, ?_, ?_⟩
  · exact C7_domain_mismatch_raises.1 [0, 1] [1, 1] "sig" 0 1 s7bkg [10, 11] [1, 1]
      (by decide) (by decide) (by decide)
  · exact (C7_domain_mismatch_raises.2 s7a (Spectrum.ofXY [10, 11, 12] [2, 2, 2] "v")
      [0, 1] [3, 3] [10, 11, 12] [2, 2, 2] (by decide) (by decide) (by decide)
      (by decide)).1
  · exact (C7_domain_mismatch_raises.2 s7a (Spectrum.ofXY [10, 11, 12] [2, 2, 2] "v")
      [0, 1] [3, 3] [10, 11, 12] [2, 2, 2] (by decide) (by decide) (by decide)
      (by decide)).2

unseal Rat.add Rat.mul Rat.sub Rat.inv Rat.ofScientific in
/-- Counterexample for C7 as stated: `s7a` and `s7b` live on disjoint
two-theta ranges (`max x₁ < min x₂`) yet, having equal lengths, their
difference and sum go through the elementwise branch and succeed instead of
raising `BkgNotInRangeError`. -/
theorem C7_counterexample :
    npMax s7a.x < npMin s7b.x ∧
    Spectrum.sub s7a s7b = .ok (Spectrum.ofXY [0, 1] [1, 1] "") ∧
    Spectrum.add s7a s7b = .ok (Spectrum.ofXY [0, 1] [5, 5] "") := by
  refine ⟨by decide, by decide, by decide⟩

unseal Rat.add Rat.mul Rat.sub Rat.inv Rat.ofScientific in
/-- C8.  `Parameter.__init__` and `Parameters.add` do default the bounds to
`−∞`/`+∞`, but `Parameters.__init__(name=...)` calls
`self.add(name, vary, value, lb=min, ub=max)`, passing the Python *builtin
functions* `min` and `max` as the bounds — a slip (the spec's
"default −∞/+∞" is clearly the intent), so the claim's "in particular"
case fails on the code. -/
theorem C8_init_with_name_bounds_are_builtins :
    ParametersInit (some "x") false 0
      = [("x", ⟨"x", false, 0, .builtin "min", .builtin "max"⟩)] ∧
    Parameters.add [] "y" false 0 .ninf .pinf
      = [("y", ⟨"y", false, 0, .ninf, .pinf⟩)] ∧
    PyVal.builtin "min" ≠ PyVal.ninf ∧ PyVal.builtin "max" ≠ PyVal.pinf := by
  refine ⟨by decide, by decide, by decide, by decide⟩

/-- C9.  For two spectra on the same grid (default scaling 1, offset 0, no
background), `(s + b) − b` returns exactly the spectrum `(x, y)` again
(fresh constructor defaults; exact rational arithmetic). -/
theorem C9_add_sub_roundtrip (x y yb : List ℚ) (n1 n2 : String)
    (hy : y.length = x.length) (hb : yb.length = x.length) :
    (Spectrum.add (Spectrum.ofXY x y n1) (Spectrum.ofXY x yb n2)).bind
      (fun sab => Spectrum.sub sab (Spectrum.ofXY x yb n2))
      = .ok (Spectrum.ofXY x y "") := by
  have hdata : ∀ (z : List ℚ) (n : String), (Spectrum.ofXY x z n).data = .ok (x, z) := by
    intro z n
    simp only [Spectrum.ofXY, Spectrum.data, map_scale_one]
    rfl
  simp only [Spectrum.add, hdata, bind, Except.bind]
  rw [if_neg (by simp)]
  simp only [pure, Except.pure, Spectrum.sub, hdata, bind, Except.bind]
  rw [if_neg (by simp)]
  rw [zipWith_add_sub_cancel y yb (by omega)]

unseal Rat.add Rat.mul Rat.sub Rat.inv Rat.ofScientific in
/-- Witness for C9 at `x = [0,1]`, `y = [2,3]`, `yb = [4,5]`. -/
theorem C9_witness :
    (Spectrum.add (Spectrum.ofXY [0, 1] [2, 3] "s") (Spectrum.ofXY [0, 1] [4, 5] "b")).bind
      (fun sab => Spectrum.sub sab (Spectrum.ofXY [0, 1] [4, 5] "b"))
      = .ok (Spectrum.ofXY [0, 1] [2, 3] "") :=
  C9_add_sub_roundtrip [0, 1] [2, 3] [4, 5] "s" "b" (by decide) (by decide)

unseal Rat.add Rat.mul Rat.sub Rat.inv Rat.ofScientific in
/-- C10.  With `param_file = None` the default `ParameterSet` holds exactly
the thirteen names `a … tth_zero`; `initialize_parameters` then reads
`self.params['P']` (and would go on to `'X'`, `'Y'`, `'zero_error'`), and
`Parameters.__getitem__` raises `ValueError('variable with name not
found')`, so the default-initialization path never completes. -/
theorem C10_default_init_raises :
    initialize_parameters_default
      = .error (.valueError "variable with name not found") ∧
    (Parameters.add_many [] default_param_names (List.replicate 13 false)
      default_param_values (List.replicate 13 .ninf)
      (List.replicate 13 .pinf)).map Prod.fst = default_param_names ∧
    alookup (Parameters.add_many [] default_param_names (List.replicate 13 false)
      default_param_values (List.replicate 13 .ninf)
      (List.replicate 13 .pinf)) "P" = none := by
  refine ⟨by decide, by decide, by decide⟩

/-!  ## C4: the centering conditions, in the claim's wording  -/

theorem centeringCond_P_eq (g : V3) : centeringCond 'P' g = true := rfl

theorem centeringCond_F_eq (g : V3) :
    centeringCond 'F' g = decide ((Even g.h ↔ Even g.k) ∧ (Even g.k ↔ Even g.l)) := by
  have h : centeringCond 'F' g
      = ! decide ((g.h + 100) % 2 + (g.k + 100) % 2 + (g.l + 100) % 2 = 1 ∨
          (g.h + 100) % 2 + (g.k + 100) % 2 + (g.l + 100) % 2 = 2) := rfl
  rw [h, Bool.eq_iff_iff]
  simp only [Bool.not_eq_true', decide_eq_false_iff_not, decide_eq_true_eq, Int.even_iff]
  omega

theorem centeringCond_I_eq (g : V3) :
    centeringCond 'I' g = decide (Even (g.h + g.k + g.l)) := by
  have h : centeringCond 'I' g = decide ((g.h + g.k + g.l + 100) % 2 = 0) := rfl
  rw [h, Bool.eq_iff_iff]
  simp only [decide_eq_true_eq, Int.even_iff]
  omega

theorem centeringCond_A_eq (g : V3) :
    centeringCond 'A' g = decide (Even (g.k + g.l)) := by
  have h : centeringCond 'A' g = decide ((g.k + g.l + 100) % 2 = 0) := rfl
  rw [h, Bool.eq_iff_iff]
  simp only [decide_eq_true_eq, Int.even_iff]
  omega

theorem centeringCond_B_eq (g : V3) :
    centeringCond 'B' g = decide (Even (g.h + g.l)) := by
  have h : centeringCond 'B' g = decide ((g.h + g.l + 100) % 2 = 0) := rfl
  rw [h, Bool.eq_iff_iff]
  simp only [decide_eq_true_eq, Int.even_iff]
  omega

theorem centeringCond_C_eq (g : V3) :
    centeringCond 'C' g = decide (Even (g.h + g.k)) := by
  have h : centeringCond 'C' g = decide ((g.h + g.k + 100) % 2 = 0) := rfl
  rw [h, Bool.eq_iff_iff]
  simp only [decide_eq_true_eq, Int.even_iff]
  omega

theorem centeringCond_R_eq (g : V3) :
    centeringCond 'R' g = decide ((3 : ℤ) ∣ (-g.h + g.k + g.l)) := by
  have h : centeringCond 'R' g = decide ((-g.h + g.k + g.l + 90) % 3 = 0) := rfl
  rw [h, Bool.eq_iff_iff]
  simp only [decide_eq_true_eq]
  omega

/-- C4 (amended).  `Allowed_HKLs` first keeps exactly the candidate
triples satisfying the centering condition named by the first letter of
the Hermann–Mauguin symbol — P: all; F: h, k, l of equal parity;
I: `h+k+l` even; A: `k+l` even; B: `h+l` even; C: `h+k` even;
R: `3 ∣ −h+k+l` — and raises `RuntimeError` for any other first letter.
For a symmorphic space group the centering-filtered list is returned as
is; for a non-symmorphic group it is further pruned by
`NonSymmorphicAbsences` (the table-driven glide-plane/screw-axis
systematic absences), so the output is *not* in general the
centering-filtered list. -/
theorem C4_Allowed_HKLs_centering (m : MaterialSym) (l : List V3) (c : Char)
    (hc : m.sg_hmsymbol.toList.head? = some c) :
    (c = 'P' → Allowed_HKLs m l
      = if m.symmorphic = true then .ok l
        else NonSymmorphicAbsences m.latticeType m.sys_ab_planes m.sys_ab_axes l) ∧
    (c = 'F' → Allowed_HKLs m l
      = if m.symmorphic = true then .ok (l.filter (fun g =>
          decide ((Even g.h ↔ Even g.k) ∧ (Even g.k ↔ Even g.l))))
        else NonSymmorphicAbsences m.latticeType m.sys_ab_planes m.sys_ab_axes
          (l.filter (fun g =>
            decide ((Even g.h ↔ Even g.k) ∧ (Even g.k ↔ Even g.l))))) ∧
    (c = 'I' → Allowed_HKLs m l
      = if m.symmorphic = true then .ok (l.filter (fun g =>
          decide (Even (g.h + g.k + g.l))))
        else NonSymmorphicAbsences m.latticeType m.sys_ab_planes m.sys_ab_axes
          (l.filter (fun g => decide (Even (g.h + g.k + g.l))))) ∧
    (c = 'A' → Allowed_HKLs m l
      = if m.symmorphic = true then .ok (l.filter (fun g => decide (Even (g.k + g.l))))
        else NonSymmorphicAbsences m.latticeType m.sys_ab_planes m.sys_ab_axes
          (l.filter (fun g => decide (Even (g.k + g.l))))) ∧
    (c = 'B' → Allowed_HKLs m l
      = if m.symmorphic = true then .ok (l.filter (fun g => decide (Even (g.h + g.l))))
        else NonSymmorphicAbsences m.latticeType m.sys_ab_planes m.sys_ab_axes
          (l.filter (fun g => decide (Even (g.h + g.l))))) ∧
    (c = 'C' → Allowed_HKLs m l
      = if m.symmorphic = true then .ok (l.filter (fun g => decide (Even (g.h + g.k))))
        else NonSymmorphicAbsences m.latticeType m.sys_ab_planes m.sys_ab_axes
          (l.filter (fun g => decide (Even (g.h + g.k))))) ∧
    (c = 'R' → Allowed_HKLs m l
      = if m.symmorphic = true then .ok (l.filter (fun g =>
          decide ((3 : ℤ) ∣ (-g.h + g.k + g.l))))
        else NonSymmorphicAbsences m.latticeType m.sys_ab_planes m.sys_ab_axes
          (l.filter (fun g => decide ((3 : ℤ) ∣ (-g.h + g.k + g.l))))) ∧
    (c ∉ knownCenterings → Allowed_HKLs m l
      = .error (.runtimeError "IsGAllowed: unknown lattice centering encountered.")) := by
  obtain ⟨rest, htl⟩ : ∃ rest, m.sg_hmsymbol.toList = c :: rest := by
    cases h : m.sg_hmsymbol.toList with
    | nil => rw [h] at hc; cases hc
    | cons c2 rest =>
      rw [h] at hc
      simp only [List.head?_cons, Option.some.injEq] at hc
      exact ⟨rest, by rw [hc]⟩
  refine ⟨?_, ?_, ?_, ?_, ?_, ?_, ?_, ?_⟩ <;> intro hcv
  case _ =>
    subst hcv
    simp only [Allowed_HKLs, htl]
    rw [if_pos (by decide)]
    rw [List.filter_congr (fun g _ => centeringCond_P_eq g), List.filter_true]
  case _ =>
    subst hcv
    simp only [Allowed_HKLs, htl]
    rw [if_pos (by decide)]
    rw [List.filter_congr (fun g _ => centeringCond_F_eq g)]
  case _ =>
    subst hcv
    simp only [Allowed_HKLs, htl]
    rw [if_pos (by decide)]
    rw [List.filter_congr (fun g _ => centeringCond_I_eq g)]
  case _ =>
    subst hcv
    simp only [Allowed_HKLs, htl]
    rw [if_pos (by decide)]
    rw [List.filter_congr (fun g _ => centeringCond_A_eq g)]
  case _ =>
    subst hcv
    simp only [Allowed_HKLs, htl]
    rw [if_pos (by decide)]
    rw [List.filter_congr (fun g _ => centeringCond_B_eq g)]
  case _ =>
    subst hcv
    simp only [Allowed_HKLs, htl]
    rw [if_pos (by decide)]
    rw [List.filter_congr (fun g _ => centeringCond_C_eq g)]
  case _ =>
    subst hcv
    simp only [Allowed_HKLs, htl]
    rw [if_pos (by decide)]
    rw [List.filter_congr (fun g _ => centeringCond_R_eq g)]
  case _ =>
    simp only [Allowed_HKLs, htl]
    rw [if_neg hcv]

/-- Witness for C4: the body-centering rule on the symmorphic tetragonal
material `mC4` (first Hermann–Mauguin letter `I`), and the primitive rule
on the non-symmorphic monoclinic material `mP21` (first letter `P`). -/
theorem C4_witness :
    (Allowed_HKLs mC4 lC4
      = if mC4.symmorphic = true then
          .ok (lC4.filter (fun g => decide (Even (g.h + g.k + g.l))))
        else
          NonSymmorphicAbsences mC4.latticeType mC4.sys_ab_planes mC4.sys_ab_axes
            (lC4.filter (fun g => decide (Even (g.h + g.k + g.l))))) ∧
    (Allowed_HKLs mP21 [⟨0, 1, 0⟩]
      = if mP21.symmorphic = true then .ok [⟨0, 1, 0⟩]
        else
          NonSymmorphicAbsences mP21.latticeType mP21.sys_ab_planes mP21.sys_ab_axes
            [⟨0, 1, 0⟩]) :=
  ⟨(C4_Allowed_HKLs_centering mC4 lC4 'I' rfl).2.2.1 rfl,
   (C4_Allowed_HKLs_centering mP21 [⟨0, 1, 0⟩] 'P' rfl).1 rfl⟩

/-- Counterexample for C4 as stated: on the non-symmorphic monoclinic
material `mP21` (primitive centering `P`, `2_1` screw axis on the unique
`b` axis) the reflection `(0, 1, 0)` satisfies the `P` centering
condition, yet `Allowed_HKLs` removes it — when the space group is not
symmorphic the code applies `NonSymmorphicAbsences` after the centering
filter — so the output is not the centering-filtered candidate list. -/
theorem C4_counterexample :
    Allowed_HKLs mP21 [⟨0, 1, 0⟩] = .ok [] ∧
    ([⟨0, 1, 0⟩] : List V3).filter (fun g => centeringCond 'P' g) = [⟨0, 1, 0⟩] ∧
    mP21.symmorphic = false ∧
    Allowed_HKLs mP21 [⟨0, 1, 0⟩]
      ≠ .ok (([⟨0, 1, 0⟩] : List V3).filter (fun g => centeringCond 'P' g)) :=
  ⟨by decide, by decide, rfl, by decide⟩

/-!  ## C6: SortHKL sorts by the composite lexicographic key  -/

theorem sortKeyLe_trans (prim : PrimFns) (rmt : M3q) :
    ∀ a b c : V3, sortKeyLe prim rmt a b = true → sortKeyLe prim rmt b c = true →
      sortKeyLe prim rmt a c = true := by
  intro a b c hab hbc
  simp only [sortKeyLe, decide_eq_true_eq] at hab hbc ⊢
  exact le_trans hab hbc

theorem sortKeyLe_total (prim : PrimFns) (rmt : M3q) :
    ∀ a b : V3, (sortKeyLe prim rmt a b || sortKeyLe prim rmt b a) = true := by
  intro a b
  simp only [sortKeyLe, Bool.or_eq_true, decide_eq_true_eq]
  exact le_total _ _

open Prod.Lex in
/-- C6.  `SortHKL` returns a permutation of its input, sorted ascending by
the composite key `(glen rounded to 8 decimals, max component, component
sum, l, k, h)`; the third conjunct unfolds the key order into its explicit
lexicographic reading. -/
theorem C6_SortHKL_sorted_perm (prim : PrimFns) (rmt : M3q) (l : List V3) :
    (SortHKL prim rmt l).Perm l ∧
    List.Sorted (fun a b => sortKey prim rmt a ≤ sortKey prim rmt b)
      (SortHKL prim rmt l) ∧
    (∀ a b : V3, (sortKey prim rmt a ≤ sortKey prim rmt b ↔
      (npRound8 (CalcLength prim rmt a) < npRound8 (CalcLength prim rmt b) ∨
        (npRound8 (CalcLength prim rmt a) = npRound8 (CalcLength prim rmt b) ∧
          (a.maxComp < b.maxComp ∨ (a.maxComp = b.maxComp ∧
            (a.compSum < b.compSum ∨ (a.compSum = b.compSum ∧
              (a.l < b.l ∨ (a.l = b.l ∧
                (a.k < b.k ∨ (a.k = b.k ∧ a.h ≤ b.h)))))))))))) := by
  refine ⟨List.mergeSort_perm l _, ?_, ?_⟩
  · have hs := List.sorted_mergeSort
      (sortKeyLe_trans prim rmt) (sortKeyLe_total prim rmt) l
    exact hs.imp (fun h => by simpa only [sortKeyLe, decide_eq_true_eq] using h)
  · intro a b
    simp only [sortKey, le_iff]

/-!  ## C5: the generated reflection list avoids the origin and respects dmin  -/

theorem CalcStar_foldl_mem (v : V3) :
    ∀ (ops : List M3i) (acc : List V3),
      ∀ x ∈ ops.foldl
        (fun vsym s =>
          let vp := s.mulVec v
          if vp ∈ vsym then vsym else vsym ++ [vp]) acc,
        x ∈ acc ∨ ∃ s ∈ ops, x = s.mulVec v := by
  intro ops
  induction ops with
  | nil => intro acc x hx; exact .inl hx
  | cons s t ih =>
    intro acc x hx
    simp only [List.foldl_cons] at hx
    rcases ih _ x hx with h | ⟨s2, hs2, he⟩
    · by_cases hc : s.mulVec v ∈ acc
      · simp only [if_pos hc] at h
        exact .inl h
      · simp only [if_neg hc, List.mem_append, List.mem_singleton] at h
        rcases h with h | h
        · exact .inl h
        · exact .inr ⟨s, List.mem_cons_self s t, h⟩
    · exact .inr ⟨s2, List.mem_cons_of_mem s hs2, he⟩

theorem mem_CalcStar_cases (sym : List M3i) (v : V3) :
    ∀ x ∈ CalcStar sym v, x = v ∨ ∃ s ∈ sym, x = s.mulVec v := by
  intro x hx
  rcases CalcStar_foldl_mem v sym [v] x hx with h | h
  · exact .inl (List.mem_singleton.mp h)
  · exact .inr h

theorem foldl_superset (v : V3) :
    ∀ (ops : List M3i) (acc : List V3), ∀ x ∈ acc,
      x ∈ ops.foldl
        (fun vsym s =>
          let vp := s.mulVec v
          if vp ∈ vsym then vsym else vsym ++ [vp]) acc := by
  intro ops
  induction ops with
  | nil => intro acc x hx; exact hx
  | cons s t ih =>
    intro acc x hx
    simp only [List.foldl_cons]
    apply ih
    by_cases hc : s.mulVec v ∈ acc
    · simpa only [if_pos hc] using hx
    · simp only [if_neg hc, List.mem_append]
      exact .inl hx

theorem self_mem_CalcStar (sym : List M3i) (v : V3) : v ∈ CalcStar sym v :=
  foldl_superset v sym [v] v (List.mem_singleton.mpr rfl)

theorem len2q_of_mem_CalcStar (sym : List M3i) (rmt : M3q) (v : V3)
    (hsym : ∀ s ∈ sym, ∀ u : V3, len2q rmt (s.mulVec u) = len2q rmt u) :
    ∀ x ∈ CalcStar sym v, len2q rmt x = len2q rmt v := by
  intro x hx
  rcases mem_CalcStar_cases sym v x hx with h | ⟨s, hs, he⟩
  · rw [h]
  · rw [he, hsym s hs v]

theorem npArgmaxAux_le :
    ∀ (t : List ℤ) (bv : ℤ) (cur best : ℕ), best ≤ cur →
      npArgmaxAux t bv cur best ≤ cur + t.length := by
  intro t
  induction t with
  | nil =>
    intro bv cur best h
    exact Nat.le_trans h (Nat.le_add_right cur _)
  | cons x xs ih =>
    intro bv cur best h
    simp only [npArgmaxAux, List.length_cons]
    split
    · have := ih x (cur + 1) (cur + 1) le_rfl
      omega
    · have := ih bv (cur + 1) best (by omega)
      omega

theorem npArgmax_lt (l : List ℤ) (h : l ≠ []) : npArgmax l < l.length := by
  cases l with
  | nil => exact absurd rfl h
  | cons a t =>
    have := npArgmaxAux_le t a 0 0 le_rfl
    simp only [npArgmax, List.length_cons]
    omega

theorem getD_mem_of_lt {l : List V3} {i : ℕ} (h : i < l.length) :
    l.getD i default ∈ l := by
  rw [List.getD_eq_getElem l default h]
  exact List.getElem_mem h

theorem mem_ChooseSymmetric_orbit (symL : List M3i) (l : List V3) :
    ∀ x ∈ ChooseSymmetric symL l, ∃ g ∈ l, x ∈ CalcStar symL g := by
  intro x hx
  simp only [ChooseSymmetric, List.mem_map] at hx
  obtain ⟨g, hg, he⟩ := hx
  have hgl : g ∈ l := by
    obtain ⟨pr, hpr, hfst⟩ := hg
    have := List.of_mem_zip (List.mem_of_mem_filter hpr)
    rw [← hfst]
    exact this.1
  refine ⟨g, hgl, ?_⟩
  have hne : CalcStar symL g ≠ [] :=
    List.ne_nil_of_mem (self_mem_CalcStar symL g)
  have hlt : npArgmax ((CalcStar symL g).map V3.compSum) < (CalcStar symL g).length := by
    have := npArgmax_lt ((CalcStar symL g).map V3.compSum)
      (by simpa only [ne_eq, List.map_eq_nil_iff] using hne)
    simpa only [List.length_map] using this
  rw [← he]
  exact getD_mem_of_lt hlt

theorem sumAbs_ne_zero_iff (g : V3) : g.sumAbs ≠ 0 ↔ g ≠ ⟨0, 0, 0⟩ := by
  cases g with
  | mk h k l =>
    simp only [V3.sumAbs, Int.abs_eq_natAbs, ne_eq, V3.mk.injEq]
    omega

theorem len2q_zero (rmt : M3q) : len2q rmt ⟨0, 0, 0⟩ = 0 := by
  simp [len2q]

/-- C5.  Every reflection in the list generated by
`Material_LeBail.getHKLs` / `Material_Rietveld.getHKLs` is distinct from
`(0,0,0)` and has d-spacing `1/|g|` at least `dmin` — provided the
reciprocal point-group operators preserve the reciprocal metric (true of
genuine symmetry operators) and the metric is nondegenerate on nonzero
integer vectors. -/
theorem C5_getHKLs_no_origin_respects_dmin (prim : PrimFns) (m : MaterialSym)
    (dmin : ℚ)
    (hsym : ∀ s ∈ m.SYM_PG_r_laue, ∀ u : V3,
      len2q m.rmt (s.mulVec u) = len2q m.rmt u)
    (hnd : ∀ u : V3, u ≠ ⟨0, 0, 0⟩ → len2q m.rmt u ≠ 0) :
    (∀ out, Material_LeBail.getHKLs prim m dmin = .ok out →
      ∀ g ∈ out, g ≠ ⟨0, 0, 0⟩ ∧ dmin ≤ 1 / CalcLength prim m.rmt g) ∧
    (∀ pr, Material_Rietveld.getHKLs prim m dmin = .ok pr →
      ∀ g ∈ pr.1, g ≠ ⟨0, 0, 0⟩ ∧ dmin ≤ 1 / CalcLength prim m.rmt g) := by
  have main : ∀ out, Material_LeBail.getHKLs prim m dmin = .ok out →
      ∀ g ∈ out, g ≠ ⟨0, 0, 0⟩ ∧ dmin ≤ 1 / CalcLength prim m.rmt g := by
    intro out hout g hg
    unfold Material_LeBail.getHKLs at hout
    simp only [bind, Except.bind, pure, Except.pure] at hout
    cases hA : Allowed_HKLs m ((arangeDesc m.ih).flatMap (fun ih =>
        (arangeDesc m.ik).flatMap (fun ik =>
          (arangeDesc0 m.il).map (fun il => V3.mk ih ik il)))) with
    | error e =>
      rw [hA] at hout
      simp at hout
    | ok allowed =>
      rw [hA] at hout
      simp only [Except.ok.injEq] at hout
      subst hout
      have hg2 : g ∈ ChooseSymmetric m.SYM_PG_r_laue (allowed.filter
          (fun g => decide (g.sumAbs ≠ 0 ∧ dmin ≤ 1 / CalcLength prim m.rmt g))) :=
        (List.mergeSort_perm _ _).mem_iff.mp hg
      obtain ⟨g0, hg0, hstar⟩ := mem_ChooseSymmetric_orbit _ _ g hg2
      have hcond := List.of_mem_filter hg0
      simp only [decide_eq_true_eq] at hcond
      have hlen : len2q m.rmt g = len2q m.rmt g0 :=
        len2q_of_mem_CalcStar _ _ _ hsym g hstar
      have hg0ne : g0 ≠ ⟨0, 0, 0⟩ := (sumAbs_ne_zero_iff g0).mp hcond.1
      constructor
      · intro hgz
        rw [hgz, len2q_zero] at hlen
        exact hnd g0 hg0ne hlen.symm
      · have : CalcLength prim m.rmt g = CalcLength prim m.rmt g0 := by
          unfold CalcLength
          rw [hlen]
        rw [this]
        exact hcond.2
  refine ⟨main, ?_⟩
  intro pr hpr g hg
  unfold Material_Rietveld.getHKLs at hpr
  simp only [bind, Except.bind, pure, Except.pure] at hpr
  cases hL : Material_LeBail.getHKLs prim m dmin with
  | error e =>
    rw [hL] at hpr
    simp at hpr
  | ok out =>
    rw [hL] at hpr
    simp only [Except.ok.injEq] at hpr
    subst hpr
    exact main out hL g hg

theorem default_M3i_mulVec (u : V3) : (default : M3i).mulVec u = u := by
  cases u with
  | mk h k l =>
    show V3.mk (1 * h + 0 * k + 0 * l) (0 * h + 1 * k + 0 * l) (0 * h + 0 * k + 1 * l)
      = V3.mk h k l
    simp

theorem len2q_id_ne_zero (u : V3) (hu : u ≠ ⟨0, 0, 0⟩) : len2q M3q.id u ≠ 0 := by
  cases u with
  | mk h k l =>
    intro hz
    apply hu
    simp only [len2q, M3q.id] at hz
    have hh : (h : ℚ) ^ 2 + (k : ℚ) ^ 2 + (l : ℚ) ^ 2 = 0 := by ring_nf; ring_nf at hz; linarith
    have h1 : (h : ℚ) ^ 2 = 0 :=
      le_antisymm (by nlinarith [sq_nonneg (k : ℚ), sq_nonneg (l : ℚ)]) (sq_nonneg _)
    have h2 : (k : ℚ) ^ 2 = 0 :=
      le_antisymm (by nlinarith [sq_nonneg (h : ℚ), sq_nonneg (l : ℚ)]) (sq_nonneg _)
    have h3 : (l : ℚ) ^ 2 = 0 :=
      le_antisymm (by nlinarith [sq_nonneg (h : ℚ), sq_nonneg (k : ℚ)]) (sq_nonneg _)
    simp only [V3.mk.injEq]
    refine ⟨?_, ?_, ?_⟩ <;>
      first
      | exact_mod_cast sq_eq_zero_iff.mp h1
      | exact_mod_cast sq_eq_zero_iff.mp h2
      | exact_mod_cast sq_eq_zero_iff.mp h3

unseal Rat.add Rat.mul Rat.sub Rat.inv Rat.ofScientific List.merge List.mergeSort in
/-- Witness for C5: the reflection list of the primitive identity-metric
material `m5` at `dmin = 1/2`. -/
theorem C5_witness :
    (Material_LeBail.getHKLs prim0 m5 (1/2) = .ok out5) ∧
    (∀ g ∈ out5, g ≠ ⟨0, 0, 0⟩ ∧ (1/2 : ℚ) ≤ 1 / CalcLength prim0 m5.rmt g) := by
  have hsym : ∀ s ∈ m5.SYM_PG_r_laue, ∀ u : V3,
      len2q m5.rmt (s.mulVec u) = len2q m5.rmt u := by
    intro s hs u
    have heq : s = default := by simpa [m5] using hs
    rw [heq, default_M3i_mulVec]
  have hnd : ∀ u : V3, u ≠ ⟨0, 0, 0⟩ → len2q m5.rmt u ≠ 0 :=
    fun u hu => len2q_id_ne_zero u hu
  have hok : Material_LeBail.getHKLs prim0 m5 (1/2) = .ok out5 := by decide
  exact ⟨hok, fun g hg =>
    (C5_getHKLs_no_origin_respects_dmin prim0 m5 (1/2) hsym hnd).1 out5 hok g hg⟩

/-!  ## Supporting lemmas for the refinement loop (C1, C2)  -/

theorem sameCore_refl (a : LeBailState) : sameCore a a :=
  ⟨rfl, rfl, rfl, rfl, rfl, rfl⟩

theorem sameCore_trans {a b c : LeBailState} (h1 : sameCore a b) (h2 : sameCore b c) :
    sameCore a c :=
  ⟨h1.1.trans h2.1, h1.2.1.trans h2.2.1, h1.2.2.1.trans h2.2.2.1,
   h1.2.2.2.1.trans h2.2.2.2.1, h1.2.2.2.2.1.trans h2.2.2.2.2.1,
   h1.2.2.2.2.2.trans h2.2.2.2.2.2⟩

theorem applyShapeParam_core (s : LeBailState) (n : String) (v : ℚ) :
    sameCore (applyShapeParam s n v) s ∧ (applyShapeParam s n v).Icalc = s.Icalc := by
  unfold sameCore applyShapeParam
  by_cases h1 : n = "U"
  · rw [if_pos h1]; exact ⟨⟨rfl, rfl, rfl, rfl, rfl, rfl⟩, rfl⟩
  rw [if_neg h1]
  by_cases h2 : n = "V"
  · rw [if_pos h2]; exact ⟨⟨rfl, rfl, rfl, rfl, rfl, rfl⟩, rfl⟩
  rw [if_neg h2]
  by_cases h3 : n = "W"
  · rw [if_pos h3]; exact ⟨⟨rfl, rfl, rfl, rfl, rfl, rfl⟩, rfl⟩
  rw [if_neg h3]
  by_cases h4 : n = "P"
  · rw [if_pos h4]; exact ⟨⟨rfl, rfl, rfl, rfl, rfl, rfl⟩, rfl⟩
  rw [if_neg h4]
  by_cases h5 : n = "X"
  · rw [if_pos h5]; exact ⟨⟨rfl, rfl, rfl, rfl, rfl, rfl⟩, rfl⟩
  rw [if_neg h5]
  by_cases h6 : n = "Y"
  · rw [if_pos h6]; exact ⟨⟨rfl, rfl, rfl, rfl, rfl, rfl⟩, rfl⟩
  rw [if_neg h6]
  by_cases h7 : n = "eta1"
  · rw [if_pos h7]; exact ⟨⟨rfl, rfl, rfl, rfl, rfl, rfl⟩, rfl⟩
  rw [if_neg h7]
  by_cases h8 : n = "eta2"
  · rw [if_pos h8]; exact ⟨⟨rfl, rfl, rfl, rfl, rfl, rfl⟩, rfl⟩
  rw [if_neg h8]
  by_cases h9 : n = "eta3"
  · rw [if_pos h9]; exact ⟨⟨rfl, rfl, rfl, rfl, rfl, rfl⟩, rfl⟩
  rw [if_neg h9]
  by_cases h10 : n = "zero_error"
  · rw [if_pos h10]; exact ⟨⟨rfl, rfl, rfl, rfl, rfl, rfl⟩, rfl⟩
  rw [if_neg h10]
  exact ⟨⟨rfl, rfl, rfl, rfl, rfl, rfl⟩, rfl⟩

theorem foldl_applyShapeParam_core (ps : List LmParam) :
    ∀ s : LeBailState,
      sameCore (ps.foldl (fun s p => applyShapeParam s p.name p.value) s) s ∧
      (ps.foldl (fun s p => applyShapeParam s p.name p.value) s).Icalc = s.Icalc := by
  induction ps with
  | nil => intro s; exact ⟨sameCore_refl s, rfl⟩
  | cons p t ih =>
    intro s
    rw [List.foldl_cons]
    have h1 := applyShapeParam_core s p.name p.value
    have h2 := ih (applyShapeParam s p.name p.value)
    exact ⟨sameCore_trans h2.1 h1.1, h2.2.trans h1.2⟩

theorem calcRwp_prestate_core (prim : PrimFns) (ps : List LmParam) (s : LeBailState) :
    sameCore (calcRwp_prestate prim ps s) s ∧
    (calcRwp_prestate prim ps s).Icalc = s.Icalc := by
  unfold calcRwp_prestate calctth
  have h := foldl_applyShapeParam_core ps s
  exact ⟨sameCore_trans ⟨rfl, rfl, rfl, rfl, rfl, rfl⟩ h.1, h.2⟩

theorem computespectrum_ok_core (prim : PrimFns) (s s' : LeBailState)
    (h : computespectrum prim s = .ok s') :
    sameCore s' s ∧ s'.Icalc = s.Icalc ∧
    Spectrum.add (Spectrum.ofXY (tth_list s) (computespectrumY prim s) "") s.background
      = .ok s'.spectrum_sim := by
  unfold computespectrum at h
  cases hA : Spectrum.add (Spectrum.ofXY (tth_list s) (computespectrumY prim s) "")
      s.background with
  | error e =>
    rw [hA] at h
    simp [bind, Except.bind] at h
  | ok sim =>
    rw [hA] at h
    simp only [bind, Except.bind, pure, Except.pure, Except.ok.injEq] at h
    subst h
    exact ⟨⟨rfl, rfl, rfl, rfl, rfl, rfl⟩, rfl, rfl⟩

theorem calcRwp_ok (prim : PrimFns) (ps : List LmParam) (s s2 : LeBailState)
    (v : List ℚ) (h : calcRwp prim ps s = .ok (s2, v)) :
    sameCore s2 s ∧ s2.Icalc = s.Icalc ∧
    Spectrum.sub s2.spectrum_sim s2.spectrum_expt = .ok s2.err ∧
    s2.Rwp = prim.sqrt (calc_wss s2.weights s2.err /
      calc_den s2.weights s2.spectrum_sim) ∧
    s2.gofF = (s2.Rwp / prim.sqrt (((s2.spectrum_sim.y.length : ℚ) - (ps.length : ℚ)) /
      calc_den s2.weights s2.spectrum_sim)) ^ 2 := by
  unfold calcRwp at h
  cases hc : computespectrum prim (calcRwp_prestate prim ps s) with
  | error e =>
    rw [hc] at h
    simp [bind, Except.bind] at h
  | ok sc =>
    rw [hc] at h
    simp only [bind, Except.bind] at h
    cases hs : Spectrum.sub sc.spectrum_sim sc.spectrum_expt with
    | error e =>
      rw [hs] at h
      simp at h
    | ok errS =>
      rw [hs] at h
      simp only [pure, Except.pure, Except.ok.injEq, Prod.mk.injEq] at h
      obtain ⟨hst, _⟩ := h
      subst hst
      have hcsp := computespectrum_ok_core prim _ _ hc
      have hpre := calcRwp_prestate_core prim ps s
      refine ⟨sameCore_trans (sameCore_trans ⟨rfl, rfl, rfl, rfl, rfl, rfl⟩ hcsp.1) hpre.1,
        ?_, ?_, rfl, rfl⟩
      · exact (hcsp.2.1).trans hpre.2
      · exact hs

theorem exceptMap_fst_ok {p : Except WErr (LeBailState × List ℚ)} {s1 : LeBailState}
    (h : p.map Prod.fst = .ok s1) : ∃ v, p = .ok (s1, v) := by
  cases p with
  | error e => simp [Except.map] at h
  | ok pr =>
    cases pr with
    | mk a b =>
      simp only [Except.map, Except.ok.injEq] at h
      subst h
      exact ⟨b, rfl⟩

theorem fold_calcRwp_core (prim : PrimFns) (params : List LmParam) :
    ∀ (trials : List (List ℚ)) (s s' : LeBailState),
      trials.foldlM (fun s t => (calcRwp prim (setValues params t) s).map Prod.fst) s
        = .ok s' →
      sameCore s' s ∧ s'.Icalc = s.Icalc := by
  intro trials
  induction trials with
  | nil =>
    intro s s' h
    simp only [List.foldlM_nil, pure, Except.pure, Except.ok.injEq] at h
    subst h
    exact ⟨sameCore_refl s, rfl⟩
  | cons t rest ih =>
    intro s s' h
    rw [List.foldlM_cons] at h
    simp only [bind, Except.bind] at h
    cases hc : (calcRwp prim (setValues params t) s).map Prod.fst with
    | error e =>
      rw [hc] at h
      simp at h
    | ok s1 =>
      rw [hc] at h
      obtain ⟨v, hcr⟩ := exceptMap_fst_ok hc
      have h1 := calcRwp_ok prim (setValues params t) s s1 v hcr
      have h2 := ih s1 s' h
      exact ⟨sameCore_trans h2.1 h1.1, h2.2.trans h1.2.1⟩

theorem fold_calcRwp_last (prim : PrimFns) (params : List LmParam) :
    ∀ (trials : List (List ℚ)) (s s' : LeBailState), trials ≠ [] →
      trials.foldlM (fun s t => (calcRwp prim (setValues params t) s).map Prod.fst) s
        = .ok s' →
      ∃ t sp v, calcRwp prim (setValues params t) sp = .ok (s', v) := by
  intro trials
  induction trials with
  | nil => intro s s' hne; exact absurd rfl hne
  | cons t rest ih =>
    intro s s' _ h
    rw [List.foldlM_cons] at h
    simp only [bind, Except.bind] at h
    cases hc : (calcRwp prim (setValues params t) s).map Prod.fst with
    | error e =>
      rw [hc] at h
      simp at h
    | ok s1 =>
      rw [hc] at h
      by_cases hr : rest = []
      · subst hr
        simp only [List.foldlM_nil, pure, Except.pure, Except.ok.injEq] at h
        subst h
        obtain ⟨v, hcr⟩ := exceptMap_fst_ok hc
        exact ⟨t, s, v, hcr⟩
      · exact ih s1 s' hr h

theorem setValues_length : ∀ (ps : List LmParam) (vs : List ℚ),
    (setValues ps vs).length = ps.length
  | [], [] => rfl
  | _ :: _, [] => rfl
  | [], _ :: _ => rfl
  | p :: ps, v :: vs => by
    simp only [setValues, List.length_cons]
    rw [setValues_length ps vs]

theorem init_lmfit_congr {a b : LeBailState} (h : a.params = b.params) :
    initialize_lmfit_parameters a = initialize_lmfit_parameters b := by
  unfold initialize_lmfit_parameters
  rw [h]

theorem CalcIobs_ok_core (prim : PrimFns) (st st' : LeBailState)
    (h : CalcIobs prim st = .ok st') :
    sameCore st' st ∧ st'.Icalc = st.Icalc := by
  unfold CalcIobs at h
  cases hd1 : st.spectrum_expt.data with
  | error e =>
    rw [hd1] at h
    simp [bind, Except.bind] at h
  | ok od =>
    rw [hd1] at h
    simp only [bind, Except.bind] at h
    cases hd2 : st.spectrum_sim.data with
    | error e =>
      rw [hd2] at h
      simp at h
    | ok cd =>
      rw [hd2] at h
      simp only [pure, Except.pure, Except.ok.injEq] at h
      subst h
      exact ⟨⟨rfl, rfl, rfl, rfl, rfl, rfl⟩, rfl⟩

theorem CalcIobs_ok_explicit (prim : PrimFns) (st st' : LeBailState)
    (xo yo xc yc : List ℚ)
    (h1 : st.spectrum_expt.data = .ok (xo, yo))
    (h2 : st.spectrum_sim.data = .ok (xc, yc))
    (h : CalcIobs prim st = .ok st') :
    st' = { st with Iobs := st.phases.map (fun pp =>
      (pp.1, st.wavelength.map (fun kl =>
        (kl.1, IobsChannel prim st yo yc pp.1 kl.1)))) } := by
  unfold CalcIobs at h
  rw [h1] at h
  simp only [bind, Except.bind] at h
  rw [h2] at h
  simp only [pure, Except.pure, Except.ok.injEq] at h
  exact h.symm

theorem alookup_map_keyed {β γ : Type} (l : List (String × β)) (f : String → γ)
    (p : String) (hp : p ∈ l.map Prod.fst) :
    alookup (l.map (fun pp => (pp.1, f pp.1))) p = some (f p) := by
  induction l with
  | nil => simp at hp
  | cons a t ih =>
    simp only [List.map_cons, alookup]
    by_cases h : a.1 = p
    · rw [if_pos h, h]
    · rw [if_neg h]
      apply ih
      simp only [List.map_cons, List.mem_cons] at hp
      rcases hp with h2 | h2
      · exact absurd h2.symm h
      · exact h2

theorem dget2_keyed (phases : List (String × MaterialData))
    (wl : List (String × ℚ)) (F : String → String → List ℚ) (p k : String)
    (hp : p ∈ phases.map Prod.fst) (hk : k ∈ wl.map Prod.fst) :
    dget2 (phases.map (fun pp => (pp.1, wl.map (fun kl => (kl.1, F pp.1 kl.1))))) p k
      = F p k := by
  unfold dget2
  have h1 : alookup (phases.map (fun pp =>
      (pp.1, wl.map (fun kl => (kl.1, F pp.1 kl.1))))) p
      = some (wl.map (fun kl => (kl.1, F p kl.1))) :=
    alookup_map_keyed phases (fun q => wl.map (fun kl => (kl.1, F q kl.1))) p hp
  have h2 : alookup (wl.map (fun kl => (kl.1, F p kl.1))) k = some (F p k) :=
    alookup_map_keyed wl (fun q => F p q) k hk
  rw [h1]
  simp only [Option.bind, h2, Option.getD_some]

theorem IobsChannel_get (prim : PrimFns) (st : LeBailState) (yo yc : List ℚ)
    (p k : String) (i : ℕ)
    (hi : i < min (dget2 st.tth p k).length (dget2 st.Icalc p k).length) :
    (IobsChannel prim st yo yc p k)[i]? = some (trapz
      (zipWith3 (fun a b c => a * b / c) yo
        ((statePV prim st
          (((dget2 st.tth p k).map (fun t => t + st.zero_error)).getD i 0)).map
          (fun pv => pv * (dget2 st.Icalc p k).getD i 0)) yc)
      (tth_list st)) := by
  unfold IobsChannel
  have hi2 : i < min ((dget2 st.tth p k).map
      (fun t => t + st.zero_error)).length (dget2 st.Icalc p k).length := by
    simpa only [List.length_map] using hi
  rw [List.getElem?_map, List.getElem?_range hi2]
  rfl

theorem RefineCycle_anatomy (prim : PrimFns) (solver : Solver) (st stF : LeBailState)
    (h : RefineCycle prim solver st = .ok stF) :
    ∃ stI st2, CalcIobs prim st = .ok stI ∧
      (solver (initialize_lmfit_parameters st)).trials.foldlM
        (fun s t => (calcRwp prim
          (setValues (initialize_lmfit_parameters st) t) s).map Prod.fst)
        { stI with Icalc := stI.Iobs } = .ok st2 ∧
      copyValues st2.params (solver (initialize_lmfit_parameters st)).final
        = .ok stF.params ∧
      stF.niter = st2.niter + 1 ∧
      stF.Rwplist = st2.Rwplist ++ [st2.Rwp] ∧
      stF.gofFlist = st2.gofFlist ++ [st2.gofF] ∧
      stF.Rwp = st2.Rwp ∧ stF.gofF = st2.gofF ∧ stF.err = st2.err ∧
      stF.spectrum_sim = st2.spectrum_sim ∧ stF.spectrum_expt = st2.spectrum_expt ∧
      stF.weights = st2.weights ∧ stF.Icalc = st2.Icalc := by
  unfold RefineCycle Refine at h
  cases hI : CalcIobs prim st with
  | error e =>
    rw [hI] at h
    simp [bind, Except.bind] at h
  | ok stI =>
    rw [hI] at h
    simp only [bind, Except.bind] at h
    have hp0 : initialize_lmfit_parameters { stI with Icalc := stI.Iobs }
        = initialize_lmfit_parameters st :=
      init_lmfit_congr ((CalcIobs_ok_core prim st stI hI).1.1)
    rw [hp0] at h
    cases hFold : (solver (initialize_lmfit_parameters st)).trials.foldlM
        (fun s t => (calcRwp prim
          (setValues (initialize_lmfit_parameters st) t) s).map Prod.fst)
        { stI with Icalc := stI.Iobs } with
    | error e =>
      rw [hFold] at h
      simp at h
    | ok st2 =>
      rw [hFold] at h
      simp only [pure, Except.pure, bind, Except.bind] at h
      unfold update_parameters at h
      simp only [bind, Except.bind] at h
      cases hCV : copyValues st2.params
          (solver (initialize_lmfit_parameters st)).final with
      | error e =>
        rw [hCV] at h
        simp at h
      | ok psN =>
        rw [hCV] at h
        simp only [pure, Except.pure, Except.ok.injEq] at h
        subst h
        exact ⟨stI, st2, rfl, hFold, hCV, rfl, rfl, rfl, rfl, rfl, rfl, rfl, rfl, rfl, rfl⟩

/-- C1.  `CalcIobs` extracts, for every phase `p`, wavelength key `k` and
reflection index `i` below the common length of the two-theta and intensity
arrays, the observed intensity
`∫ experimental_y · (PV_i · Icalc[i]) / simulated_y  d(two-theta)`
(trapezoidal integration over the experimental grid), and `RefineCycle`
adopts the extracted values as the new calculated intensities (they are
installed before the solver runs, no residual evaluation writes `Icalc`,
so the final state still carries `Icalc = Iobs`). -/
theorem C1_CalcIobs_partition (prim : PrimFns) (solver : Solver)
    (st stI stF : LeBailState) (xo yo xc yc : List ℚ) (p k : String) (i : ℕ)
    (hp : p ∈ st.phases.map Prod.fst) (hk : k ∈ st.wavelength.map Prod.fst)
    (hexpt : st.spectrum_expt.data = .ok (xo, yo))
    (hsim : st.spectrum_sim.data = .ok (xc, yc))
    (hI : CalcIobs prim st = .ok stI)
    (hi : i < min (dget2 st.tth p k).length (dget2 st.Icalc p k).length)
    (hF : RefineCycle prim solver st = .ok stF) :
    (dget2 stI.Iobs p k)[i]? = some (trapz
      (zipWith3 (fun a b c => a * b / c) yo
        ((statePV prim st
          (((dget2 st.tth p k).map (fun t => t + st.zero_error)).getD i 0)).map
          (fun pv => pv * (dget2 st.Icalc p k).getD i 0)) yc)
      (tth_list st)) ∧
    stF.Icalc = stI.Iobs := by
  have hst' := CalcIobs_ok_explicit prim st stI xo yo xc yc hexpt hsim hI
  constructor
  · rw [hst']
    have hd : dget2 (st.phases.map (fun pp =>
        (pp.1, st.wavelength.map (fun kl =>
          (kl.1, IobsChannel prim st yo yc pp.1 kl.1))))) p k
        = IobsChannel prim st yo yc p k :=
      dget2_keyed st.phases st.wavelength
        (fun a b => IobsChannel prim st yo yc a b) p k hp hk
    rw [show ({ st with Iobs := st.phases.map (fun pp =>
        (pp.1, st.wavelength.map (fun kl =>
          (kl.1, IobsChannel prim st yo yc pp.1 kl.1)))) } : LeBailState).Iobs
        = st.phases.map (fun pp =>
        (pp.1, st.wavelength.map (fun kl =>
          (kl.1, IobsChannel prim st yo yc pp.1 kl.1)))) from rfl, hd]
    exact IobsChannel_get prim st yo yc p k i hi
  · obtain ⟨stI', st2, hI', hFold, _, _, _, _, _, _, _, _, _, _, hIc⟩ :=
      RefineCycle_anatomy prim solver st stF hF
    have hII : stI' = stI := by
      rw [hI] at hI'
      exact (Except.ok.injEq _ _).mp hI'.symm
    subst hII
    have hfold := fold_calcRwp_core prim (initialize_lmfit_parameters st) _ _ _ hFold
    rw [hIc, hfold.2]

/-- C2 (amended).  After every successful `RefineCycle` in which the solver
performed at least one residual evaluation: the iteration counter grows by
one; exactly one value is appended to each of the `Rwp` and `gofF`
histories; the appended `Rwp` equals
`sqrt(trapz(w·(sim−obs)², x) / trapz(w·sim², x))` — *trapezoidal
integrals* over the grid, not the plain sums the claim states — with the
appended `gofF = (Rwp/Rexp)²`, `Rexp = sqrt((N−P)/trapz(w·sim², x))`,
`N` the number of simulated data points and `P` the number of varying
parameters; and the converged solver values are copied back into the
`ParameterSet`. -/
theorem C2_RefineCycle_history (prim : PrimFns) (solver : Solver)
    (st stF : LeBailState)
    (hne : (solver (initialize_lmfit_parameters st)).trials ≠ [])
    (h : RefineCycle prim solver st = .ok stF) :
    stF.niter = st.niter + 1 ∧
    stF.Rwplist = st.Rwplist ++ [stF.Rwp] ∧
    stF.gofFlist = st.gofFlist ++ [stF.gofF] ∧
    Spectrum.sub stF.spectrum_sim stF.spectrum_expt = .ok stF.err ∧
    stF.Rwp = prim.sqrt (calc_wss stF.weights stF.err /
      calc_den stF.weights stF.spectrum_sim) ∧
    stF.gofF = (stF.Rwp / prim.sqrt (((stF.spectrum_sim.y.length : ℚ) -
      ((initialize_lmfit_parameters st).length : ℚ)) /
      calc_den stF.weights stF.spectrum_sim)) ^ 2 ∧
    copyValues st.params (solver (initialize_lmfit_parameters st)).final
      = .ok stF.params ∧
    stF.weights = st.weights ∧ stF.spectrum_expt = st.spectrum_expt := by
  obtain ⟨stI, st2, hI, hFold, hCV, hn, hrl, hgl, hrw, hgf, herr, hsimE, hexptE, hw, _⟩ :=
    RefineCycle_anatomy prim solver st stF h
  have hIcore := (CalcIobs_ok_core prim st stI hI).1
  have hfold := fold_calcRwp_core prim (initialize_lmfit_parameters st) _ _ _ hFold
  have hmid : sameCore ({ stI with Icalc := stI.Iobs } : LeBailState) stI :=
    ⟨rfl, rfl, rfl, rfl, rfl, rfl⟩
  have hcore : sameCore st2 st :=
    sameCore_trans (sameCore_trans hfold.1 hmid) hIcore
  obtain ⟨t, sp, v, hlast⟩ :=
    fold_calcRwp_last prim (initialize_lmfit_parameters st) _ _ _ hne hFold
  have hco := calcRwp_ok prim _ sp st2 v hlast
  refine ⟨?_, ?_, ?_, ?_, ?_, ?_, ?_, ?_, ?_⟩
  · rw [hn, hcore.2.2.1]
  · rw [hrl, hcore.2.2.2.1, hrw]
  · rw [hgl, hcore.2.2.2.2.1, hgf]
  · rw [hsimE, hexptE, herr]
    exact hco.2.2.1
  · rw [hrw, hw, herr, hsimE]
    exact hco.2.2.2.1
  · rw [hgf, hrw, hw, hsimE]
    have := hco.2.2.2.2
    rwa [setValues_length] at this
  · rw [← hcore.1]
    exact hCV
  · rw [hw, hcore.2.1]
  · rw [hexptE, hcore.2.2.2.2.2]

unseal Rat.add Rat.mul Rat.sub Rat.inv Rat.ofScientific in
/-- Witness for C1: one phase, one wavelength, one reflection.  The
extraction formula and the `Icalc ← Iobs` adoption hold on the concrete
run. -/
theorem C1_witness :
    (CalcIobs prim0 st1c = .ok st1cIobs) ∧
    (dget2 st1cIobs.Iobs "p1" "k1")[0]? = some (trapz
      (zipWith3 (fun a b c => a * b / c) [1, 4, 1]
        ((statePV prim0 st1c
          (((dget2 st1c.tth "p1" "k1").map
            (fun t => t + st1c.zero_error)).getD 0 0)).map
          (fun pv => pv * (dget2 st1c.Icalc "p1" "k1").getD 0 0)) [5, 5, 5])
      (tth_list st1c)) ∧
    st1cPost.Icalc = st1cIobs.Iobs := by
  have h := C1_CalcIobs_partition prim0 solver0 st1c st1cIobs st1cPost
    [0, 1, 3] [1, 4, 1] [0, 1, 3] [5, 5, 5] "p1" "k1" 0
    (by decide) (by decide) (by decide) (by decide) (by decide) (by decide) (by decide)
  exact ⟨by decide, h.1, h.2⟩

unseal Rat.add Rat.mul Rat.sub Rat.inv Rat.ofScientific in
/-- Witness for C2 (amended): a concrete `RefineCycle` run appends exactly
one `Rwp` value. -/
theorem C2_witness :
    (solver0 (initialize_lmfit_parameters st2c)).trials ≠ [] ∧
    st2cPost.niter = st2c.niter + 1 ∧
    st2cPost.Rwplist = st2c.Rwplist ++ [st2cPost.Rwp] :=
  ⟨by decide,
   (C2_RefineCycle_history prim0 solver0 st2c st2cPost (by decide) (by decide)).1,
   (C2_RefineCycle_history prim0 solver0 st2c st2cPost (by decide) (by decide)).2.1⟩

unseal Rat.add Rat.mul Rat.sub Rat.inv Rat.ofScientific in
/-- Counterexample for C2 as stated.  On the concrete zero-phase state
`st2c` (grid `[0,1,3]`, observed `[1,4,1]`, weights `[1,1/2,1]`, simulated
spectrum = background `[2,2,2]`) the appended residual value is
`sqrt(trapz-ratio) = sqrt(1/2)` while the claim's plain-sum formula gives
`sqrt(2/5)` (here `sqrt := id` — real `sqrt` is injective on nonnegative
radicands, so the two values differ for the real interpretation exactly
because `1/2 ≠ 2/5`).  Likewise the appended goodness of fit is
`(9/4 : ℚ)` while the claim's sum-based formula gives `16/9`.  The code
integrates with `np.trapz`; the claim says "sum over grid points". -/
theorem C2_counterexample :
    RefineCycle prim0 solver0 st2c = .ok st2cPost ∧
    st2cPost.Rwplist = [1/2] ∧
    Rwp_spec_sum prim0 st2cPost.weights st2cPost.spectrum_sim.y
      st2cPost.spectrum_expt.y = 2/5 ∧
    ((1 : ℚ)/2) ≠ 2/5 ∧
    st2cPost.gofFlist = [9/4] ∧
    ((Rwp_spec_sum prim0 st2cPost.weights st2cPost.spectrum_sim.y
        st2cPost.spectrum_expt.y /
      prim0.sqrt ((((st2cPost.spectrum_sim.y.length : ℚ) - 0)) /
        (List.zipWith (fun w s => w * s ^ 2) st2cPost.weights
          st2cPost.spectrum_sim.y).sum)) ^ 2 = 16/9) ∧
    ((9 : ℚ)/4) ≠ 16/9 := by
  refine ⟨by decide, by decide, by decide, by decide, by decide, by decide, by decide⟩
